import Mathlib

/-!
AURDriverOpenCV: triple-buffered camera driver

A shallow embedding of `AURDriverOpenCV.cpp` (the OpenCV camera driver of the
AugmentedUnreality plugin) and proofs about its frame hand-off, orientation
slot, calibration loading and capture loop.

Conventions of the embedding
* A pointer into `FrameInstances` is an index `Fin 3`.
* `int32` values are `Int`; the one product the source computes (`pixel_count`)
  is wrapped to 32 bits by `wrapInt32`.
* `float` values are never computed with in the source except by conversion
  from `int32` and one division; they are kept symbolically (`FloatVal`).
* Indexing outside an array, integer division by zero and the one `int32`
  division whose quotient overflows have no defined result in C++; the
  embedded function returns `none` there.
* `UE_LOG` calls have no effect on the driver and are left out.
* The capture thread and the consumer are composed at the granularity of whole
  operations (one loop iteration, one `GetFrame` call, ...); lock scopes and
  interleavings inside an operation are treated separately, on listings of the
  steps of each method.
* Declarations that live in headers or base classes outside the source file
  (`FAURVideoFrame::SetResolution`, `UAURDriver::StoreNewOrientation`,
  `FOpenCVCameraProperties::LoadFromFile`, the marker tracker, the capture
  device) are either parameters collected in `Env` or small definitions marked
  as modelled from the specification.
-/

namespace AUR

/-! ## Data model -/

/-- Symbolic `float`: a stored bit pattern, the conversion of an `int32`, or the
quotient of two floats. -/
inductive FloatVal where
  | raw (bits : Nat)
  | ofInt32 (n : Int)
  | fdiv (a b : FloatVal)
  deriving DecidableEq, Repr

/-- Two's-complement wrap of an integer to 32 bits. -/
def wrapInt32 (z : Int) : Int := (z + 2147483648) % 4294967296 - 2147483648

/-- Engine type `FIntPoint`: a pair of `int32`. -/
structure FIntPoint where
  X : Int
  Y : Int
  deriving DecidableEq, Repr

/-- Engine type `FColor`: four 8-bit channels. -/
structure FColor where
  B : Fin 256
  G : Fin 256
  R : Fin 256
  A : Fin 256
  deriving DecidableEq, Repr

/-- Camera pixel as delivered by OpenCV (`CV_8UC3`, blue-green-red order). -/
structure BGR_Color where
  B : Fin 256
  G : Fin 256
  R : Fin 256
  deriving DecidableEq, Repr

/-- The part of `cv::Mat` the driver uses: `size()` and the pixel data. -/
structure Mat where
  width : Int
  height : Int
  data : List BGR_Color
  deriving DecidableEq, Repr

/-- Engine type `FTransform` (rotation quaternion, translation, scale). -/
structure FTransform where
  Rotation : List FloatVal
  Translation : List FloatVal
  Scale3D : List FloatVal
  deriving DecidableEq, Repr

/-- Frame buffer `FAURVideoFrame`: the resolution it was sized for and its
pixel array (`TArray<FColor> Image`). -/
structure FAURVideoFrame where
  Resolution : FIntPoint
  Image : List FColor
  deriving DecidableEq, Repr

/-- Value of `pixel_count = Resolution.X * Resolution.Y` as an `int32`. -/
def pixelCount (res : FIntPoint) : Int := wrapInt32 (res.X * res.Y)

/-- Modelled from the spec: `FAURVideoFrame::SetResolution` is declared in a
header, not in `AURDriverOpenCV.cpp`. Per the data model ("a contiguous pixel
array sized width*height ... resizing reallocates before first write") it
records the resolution and reallocates the pixel array; `fill i` is the value
the fresh allocation holds at pixel `i`. -/
def FAURVideoFrame.SetResolution (fill : Nat → FColor) (_f : FAURVideoFrame)
    (res : FIntPoint) : FAURVideoFrame :=
  { Resolution := res, Image := (List.range (pixelCount res).toNat).map fill }

/-- Camera intrinsics `FOpenCVCameraProperties`; only `FOV` is read here. -/
structure FOpenCVCameraProperties where
  FOV_X : FloatVal
  FOV_Y : FloatVal
  Intrinsics : List FloatVal
  deriving DecidableEq, Repr

/-- Marker tracker object owned by the driver: the settings and intrinsics it
was last given. -/
structure FAURMarkerTracker where
  Settings : List Int
  CameraProperties : FOpenCVCameraProperties
  deriving DecidableEq, Repr

/-- Driver status enumeration; only `DS_Disconnected` is named in the source. -/
inductive EAURDriverStatus where
  | DS_Disconnected
  | DS_Other (code : Nat)
  deriving DecidableEq, Repr

/-- State of `UAURDriverOpenCV` (members of the class and of its base that
`AURDriverOpenCV.cpp` touches). `Worker` and `WorkerThread` are the validity of the two
owning pointers. -/
structure UAURDriverOpenCV where
  CameraIndex : Int
  Resolution : FIntPoint
  bPerformOrientationTracking : Bool
  TrackerSettings : List Int
  Tracker : FAURMarkerTracker
  CameraProperties : FOpenCVCameraProperties
  CameraFov : FloatVal
  CameraAspectRatio : FloatVal
  Status : EAURDriverStatus
  DiagnosticText : String
  CurrentOrientation : FTransform
  bNewFrameReady : Bool
  bNewOrientationReady : Bool
  FrameInstances : Fin 3 → FAURVideoFrame
  WorkerFrame : Fin 3
  AvailableFrame : Fin 3
  PublishedFrame : Fin 3
  Worker : Bool
  WorkerThread : Bool

/-- State of the worker object `FWorkerRunnable`. -/
structure FWorkerRunnable where
  bContinue : Bool
  CapturedFrame : Mat
  VideoCaptureOpened : Bool
  deriving DecidableEq, Repr

/-- External collaborators of the driver. -/
structure Env where
  /-- Base-class method `Super::Initialize()`. -/
  Super_Initialize : UAURDriverOpenCV → UAURDriverOpenCV
  /-- Result of `GetCalibrationFileFullPath()`. -/
  CalibrationFileFullPath : String
  /-- Result of `GetCalibrationFallbackFileFullPath()`. -/
  CalibrationFallbackFileFullPath : String
  /-- Calibration store: the intrinsics a file holds, `none` when it cannot be loaded. -/
  CalibrationStore : String → Option FOpenCVCameraProperties
  /-- Whether `FRunnableThread::Create` returned a thread. -/
  ThreadCreated : Bool
  /-- Device `cv::VideoCapture(index)`: `none` when the device does not open, otherwise the
  resolution the device reports after the given one was requested. -/
  OpenCamera : Int → Option (FIntPoint → FIntPoint)
  /-- Result of `Tracker.DetectMarkers(image, out transform)`. -/
  DetectMarkers : FAURMarkerTracker → Mat → Bool × FTransform
  /-- Content of a freshly allocated pixel array. -/
  FreshPixel : Nat → FColor

/-! ## Controller operations -/

/-- Modelled from the spec: `UAURDriver::StoreNewOrientation` belongs to the
base class, whose source is not in `AURDriverOpenCV.cpp`. Per the specification of the
orientation slot ("overwrites the held pose") it replaces `CurrentOrientation`
by the measurement. -/
def Super_StoreNewOrientation (d : UAURDriverOpenCV) (measurement : FTransform) :
    UAURDriverOpenCV :=
  { d with CurrentOrientation := measurement }

/-- Method `UAURDriverOpenCV::StoreNewOrientation`. -/
def StoreNewOrientation (d : UAURDriverOpenCV) (measurement : FTransform) :
    UAURDriverOpenCV :=
  let d1 := Super_StoreNewOrientation d measurement
  { d1 with bNewOrientationReady := true }

/-- Modelled from the spec: `FOpenCVCameraProperties::LoadFromFile` is declared
outside `AURDriverOpenCV.cpp`. Per the calibration store interface ("load(path) ->
intrinsics|failure") a successful load replaces the properties by the file's
and reports `true`; a failed load leaves them as they were and reports `false`. -/
def FOpenCVCameraProperties.LoadFromFile (env : Env) (cur : FOpenCVCameraProperties)
    (file_path : String) : Bool × FOpenCVCameraProperties :=
  match env.CalibrationStore file_path with
  | some loaded => (true, loaded)
  | none => (false, cur)

/-- Method `UAURDriverOpenCV::LoadCalibration`. The `int32` division
`Resolution.X / Resolution.Y` has no result when the divisor is zero, nor when
the quotient overflows (`-2147483648 / -1`). -/
def LoadCalibration (env : Env) (d : UAURDriverOpenCV) : Option UAURDriverOpenCV :=
  let r1 := FOpenCVCameraProperties.LoadFromFile env d.CameraProperties
    env.CalibrationFileFullPath
  let r2 := FOpenCVCameraProperties.LoadFromFile env r1.2
    env.CalibrationFallbackFileFullPath
  let props := r2.2
  let tracker := { d.Tracker with CameraProperties := props }
  if d.Resolution.Y = 0 ∨ (d.Resolution.X = -2147483648 ∧ d.Resolution.Y = -1) then none
  else some { d with
    CameraProperties := props
    Tracker := tracker
    CameraFov := props.FOV_X
    CameraAspectRatio := FloatVal.ofInt32 (Int.tdiv d.Resolution.X d.Resolution.Y) }

/-- Method `UAURDriverOpenCV::InitializeWorker`: a worker object is created and
a thread is requested for it. -/
def InitializeWorker (env : Env) (d : UAURDriverOpenCV) : UAURDriverOpenCV :=
  { d with Worker := true, WorkerThread := env.ThreadCreated }

/-- Method `UAURDriverOpenCV::Initialize`. -/
def Initialize (env : Env) (d : UAURDriverOpenCV) : Option UAURDriverOpenCV :=
  let d0 := env.Super_Initialize d
  let d1 := { d0 with
    Status := EAURDriverStatus.DS_Disconnected
    bNewFrameReady := false
    bNewOrientationReady := false }
  match LoadCalibration env d1 with
  | none => none
  | some d2 =>
    let d3 := { d2 with Tracker := { d2.Tracker with Settings := d2.TrackerSettings } }
    let d4 := { d3 with WorkerFrame := 0, AvailableFrame := 1, PublishedFrame := 2 }
    some (InitializeWorker env d4)

/-- Method `UAURDriverOpenCV::GetFrame`: the state after the call and the
returned pointer. -/
def GetFrame (d : UAURDriverOpenCV) : UAURDriverOpenCV × Fin 3 :=
  let d1 :=
    if d.bNewFrameReady then
      { d with
        AvailableFrame := d.PublishedFrame
        PublishedFrame := d.AvailableFrame
        bNewFrameReady := false }
    else d
  (d1, d1.PublishedFrame)

/-- Method `UAURDriverOpenCV::IsNewFrameAvailable`. -/
def IsNewFrameAvailable (d : UAURDriverOpenCV) : Bool := d.bNewFrameReady

/-- Method `UAURDriverOpenCV::IsNewOrientationAvailable`. -/
def IsNewOrientationAvailable (d : UAURDriverOpenCV) : Bool := d.bNewOrientationReady

/-- Method `UAURDriverOpenCV::GetOrientation`: the state after the call and the
returned transform. -/
def GetOrientation (d : UAURDriverOpenCV) : UAURDriverOpenCV × FTransform :=
  let d1 := { d with bNewOrientationReady := false }
  (d1, d1.CurrentOrientation)

/-- Method `UAURDriverOpenCV::GetDiagnosticText`. -/
def GetDiagnosticText (d : UAURDriverOpenCV) : String := d.DiagnosticText

/-! ## Worker -/

/-- Constructor of `FWorkerRunnable`: `cv::Mat(res.X, res.Y, CV_8UC3, (0,0,255))`
has `res.X` rows and `res.Y` columns of red pixels; `bContinue` is not set by
the constructor and holds `bContinue0`. -/
def FWorkerRunnable.ctor (d : UAURDriverOpenCV) (bContinue0 : Bool) : FWorkerRunnable :=
  { bContinue := bContinue0
    CapturedFrame :=
      { width := d.Resolution.Y
        height := d.Resolution.X
        data := List.replicate (d.Resolution.X * d.Resolution.Y).toNat
          { B := 0, G := 0, R := 255 } }
    VideoCaptureOpened := false }

/-- Method `FWorkerRunnable::Init`. -/
def FWorkerRunnable.Init (w : FWorkerRunnable) : FWorkerRunnable × Bool :=
  ({ w with bContinue := true }, true)

/-- Method `FWorkerRunnable::Stop`. -/
def FWorkerRunnable.Stop (w : FWorkerRunnable) : FWorkerRunnable :=
  { w with bContinue := false }

/-- The pixel loop of `Run`: `n` further passes starting at `pixel_idx`, each
copying the R, G and B members of `src_pixels[pixel_idx]` into
`dest_pixels[pixel_idx]`. -/
def convertPixels (src_pixels : List BGR_Color) :
    Nat → Nat → List FColor → Option (List FColor)
  | 0, _, dest_pixels => some dest_pixels
  | n + 1, pixel_idx, dest_pixels =>
    match src_pixels[pixel_idx]?, dest_pixels[pixel_idx]? with
    | some src_pix, some dest_pix =>
      convertPixels src_pixels n (pixel_idx + 1)
        (dest_pixels.set pixel_idx
          { dest_pix with R := src_pix.R, G := src_pix.G, B := src_pix.B })
    | _, _ => none

/-- The block at the end of the loop body: exchange `WorkerFrame` and
`AvailableFrame` and raise `bNewFrameReady`. -/
def publishFrame (d : UAURDriverOpenCV) : UAURDriverOpenCV :=
  { d with
    WorkerFrame := d.AvailableFrame
    AvailableFrame := d.WorkerFrame
    bNewFrameReady := true }

/-- Effect of the pixel loop on the driver: the pixel array of the buffer
`WorkerFrame` points to becomes `image`. -/
def writeWorkerImage (d : UAURDriverOpenCV) (image : List FColor) : UAURDriverOpenCV :=
  { d with
    FrameInstances := Function.update d.FrameInstances d.WorkerFrame
      { d.FrameInstances d.WorkerFrame with Image := image } }

/-- The orientation-tracking block of the loop body. -/
def trackOrientation (env : Env) (d : UAURDriverOpenCV) (CapturedFrame : Mat) :
    UAURDriverOpenCV :=
  if d.bPerformOrientationTracking then
    let r := env.DetectMarkers d.Tracker CapturedFrame
    if r.1 then StoreNewOrientation d r.2 else d
  else d

/-- One pass through the body of the `while (bContinue)` loop of `Run`, the
device delivering `frame`. -/
def FWorkerRunnable.Iteration (env : Env) (w : FWorkerRunnable) (d : UAURDriverOpenCV)
    (frame : Mat) : Option (FWorkerRunnable × UAURDriverOpenCV) :=
  let w1 := { w with CapturedFrame := frame }
  if frame.width ≠ d.Resolution.X ∨ frame.height ≠ d.Resolution.Y then
    some (w1, d)
  else
    let d1 := trackOrientation env d frame
    let pixel_count := pixelCount d1.Resolution
    match convertPixels frame.data pixel_count.toNat 0
        (d1.FrameInstances d1.WorkerFrame).Image with
    | none => none
    | some image => some (w1, publishFrame (writeWorkerImage d1 image))

/-- The `while (bContinue)` loop of `Run` over the frames the device delivers
before the loop is left; the last component counts the passes through the body.
The body never changes `bContinue`, so the loop is left either because
`bContinue` was false at its head or because `Stop` arrived after the last
delivered frame. -/
def FWorkerRunnable.Loop (env : Env) :
    FWorkerRunnable → UAURDriverOpenCV → List Mat →
      Option (FWorkerRunnable × UAURDriverOpenCV × Nat)
  | w, d, [] => some (w, d, 0)
  | w, d, frame :: rest =>
    if w.bContinue then
      match FWorkerRunnable.Iteration env w d frame with
      | none => none
      | some (w1, d1) =>
        match FWorkerRunnable.Loop env w1 d1 rest with
        | none => none
        | some (w2, d2, n) => some (w2, d2, n + 1)
    else some (w, d, 0)

/-- The part of `Run` before the loop: open the device, adopt the resolution
it reports and size the three role buffers for it; on failure clear
`bContinue`. -/
def FWorkerRunnable.OpenDevice (env : Env) (w : FWorkerRunnable) (d : UAURDriverOpenCV) :
    FWorkerRunnable × UAURDriverOpenCV :=
  let wd :=
    match env.OpenCamera d.CameraIndex with
    | some report =>
      let res := report d.Resolution
      let d1 := { d with
        Resolution := res
        CameraAspectRatio := FloatVal.fdiv (FloatVal.ofInt32 res.X) (FloatVal.ofInt32 res.Y) }
      let f1 := Function.update d1.FrameInstances d1.WorkerFrame
        ((d1.FrameInstances d1.WorkerFrame).SetResolution env.FreshPixel d1.Resolution)
      let f2 := Function.update f1 d1.AvailableFrame
        ((f1 d1.AvailableFrame).SetResolution env.FreshPixel d1.Resolution)
      let f3 := Function.update f2 d1.PublishedFrame
        ((f2 d1.PublishedFrame).SetResolution env.FreshPixel d1.Resolution)
      ({ w with VideoCaptureOpened := true }, { d1 with FrameInstances := f3 })
    | none => ({ w with VideoCaptureOpened := false, bContinue := false }, d)
  (wd.1, { wd.2 with DiagnosticText := "START" })

/-- Method `FWorkerRunnable::Run`, the device delivering `frames` before the
loop is left. -/
def FWorkerRunnable.Run (env : Env) (w : FWorkerRunnable) (d : UAURDriverOpenCV)
    (frames : List Mat) : Option (FWorkerRunnable × UAURDriverOpenCV × Nat) :=
  let wd := FWorkerRunnable.OpenDevice env w d
  match FWorkerRunnable.Loop env wd.1 wd.2 frames with
  | none => none
  | some (w1, d1, n) => some ({ w1 with VideoCaptureOpened := false }, d1, n)

/-! ## Observations and invariants -/

/-- The colour channels of a buffer pixel that the pixel loop writes. -/
def FColor.rgb (p : FColor) : Fin 256 × Fin 256 × Fin 256 := (p.R, p.G, p.B)

/-- The colour channels of a camera pixel. -/
def BGR_Color.rgb (p : BGR_Color) : Fin 256 × Fin 256 × Fin 256 := (p.R, p.G, p.B)

/-- The size of a captured frame is the driver's resolution (the negation of
the test at the head of the loop body). -/
def Mat.Matches (frame : Mat) (res : FIntPoint) : Prop :=
  frame.width = res.X ∧ frame.height = res.Y

instance (frame : Mat) (res : FIntPoint) : Decidable (frame.Matches res) := by
  unfold Mat.Matches; infer_instance

/-- Each buffer holds exactly one role: the three role pointers are pairwise
distinct and every element of `FrameInstances` is pointed to by one of them. -/
def RolesDistinct (d : UAURDriverOpenCV) : Prop :=
  d.WorkerFrame ≠ d.AvailableFrame ∧ d.AvailableFrame ≠ d.PublishedFrame ∧
    d.WorkerFrame ≠ d.PublishedFrame ∧
    ∀ i : Fin 3, i = d.WorkerFrame ∨ i = d.AvailableFrame ∨ i = d.PublishedFrame

instance (d : UAURDriverOpenCV) : Decidable (RolesDistinct d) := by
  unfold RolesDistinct; infer_instance

/-- An operation of one of the two threads: a pass through the capture loop
body with the given frame, or a call by the consumer. -/
inductive Op where
  | capture (frame : Mat)
  | getFrame
  | getOrientation
  deriving DecidableEq, Repr

/-- Effect of one operation on the worker and the driver. -/
def stepOp (env : Env) (w : FWorkerRunnable) (d : UAURDriverOpenCV) :
    Op → Option (FWorkerRunnable × UAURDriverOpenCV)
  | Op.capture frame => FWorkerRunnable.Iteration env w d frame
  | Op.getFrame => some (w, (GetFrame d).1)
  | Op.getOrientation => some (w, (GetOrientation d).1)

/-- Effect of a finite sequence of operations, performed in order. -/
def runOps (env : Env) :
    FWorkerRunnable → UAURDriverOpenCV → List Op → Option (FWorkerRunnable × UAURDriverOpenCV)
  | w, d, [] => some (w, d)
  | w, d, op :: rest =>
    match stepOp env w d op with
    | none => none
    | some (w1, d1) => runOps env w1 d1 rest

/-! ## Concrete data for evaluation -/

/-- A transform with the given translation. -/
def demoPose (x : Int) : FTransform :=
  { Rotation := [FloatVal.ofInt32 0, FloatVal.ofInt32 0, FloatVal.ofInt32 0, FloatVal.ofInt32 1]
    Translation := [FloatVal.ofInt32 x, FloatVal.ofInt32 0, FloatVal.ofInt32 0]
    Scale3D := [FloatVal.ofInt32 1, FloatVal.ofInt32 1, FloatVal.ofInt32 1] }

/-- Intrinsics tagged by a number. -/
def demoProps (tag : Nat) : FOpenCVCameraProperties :=
  { FOV_X := FloatVal.raw tag, FOV_Y := FloatVal.raw tag, Intrinsics := [] }

/-- A 2 x 1 frame whose two pixels have all channels equal to `v` and `v + 1`. -/
def demoFrame (v : Nat) : Mat :=
  { width := 2, height := 1
    data := [{ B := Fin.ofNat v, G := Fin.ofNat v, R := Fin.ofNat v },
             { B := Fin.ofNat (v + 1), G := Fin.ofNat (v + 1), R := Fin.ofNat (v + 1) }] }

/-- A frame of the wrong size (1 x 1). -/
def demoBadFrame : Mat :=
  { width := 1, height := 1, data := [{ B := 9, G := 9, R := 9 }] }

/-- A driver configured for 2 x 1 frames whose three buffers hold two black
pixels each. -/
def demoDriver : UAURDriverOpenCV :=
  { CameraIndex := 0
    Resolution := { X := 2, Y := 1 }
    bPerformOrientationTracking := true
    TrackerSettings := []
    Tracker := { Settings := [], CameraProperties := demoProps 0 }
    CameraProperties := demoProps 0
    CameraFov := FloatVal.raw 0
    CameraAspectRatio := FloatVal.raw 0
    Status := EAURDriverStatus.DS_Other 1
    DiagnosticText := ""
    CurrentOrientation := demoPose 0
    bNewFrameReady := true
    bNewOrientationReady := true
    FrameInstances := fun _ =>
      { Resolution := { X := 2, Y := 1 }
        Image := [{ B := 0, G := 0, R := 0, A := 255 }, { B := 0, G := 0, R := 0, A := 255 }] }
    WorkerFrame := 2
    AvailableFrame := 0
    PublishedFrame := 1
    Worker := false
    WorkerThread := false }

/-- Collaborators: the primary calibration file is missing when `primary` is
`none` (likewise `fallback`), the camera opens and reports 2 x 1 when `opens`,
and the tracker finds a marker exactly in frames whose first pixel is odd. -/
def demoEnv (primary fallback : Option FOpenCVCameraProperties) (opens : Bool) : Env :=
  { Super_Initialize := fun d => d
    CalibrationFileFullPath := "calibration.xml"
    CalibrationFallbackFileFullPath := "default.xml"
    CalibrationStore := fun path =>
      if path = "calibration.xml" then primary
      else if path = "default.xml" then fallback else none
    ThreadCreated := true
    OpenCamera := fun _ => if opens then some (fun _ => { X := 2, Y := 1 }) else none
    DetectMarkers := fun _ frame =>
      match frame.data with
      | p :: _ => (p.R.val % 2 = 1, demoPose p.R.val)
      | [] => (false, demoPose 0)
    FreshPixel := fun _ => { B := 0, G := 0, R := 0, A := 0 } }

/-- A worker after `Init`. -/
def demoWorker : FWorkerRunnable :=
  (FWorkerRunnable.Init (FWorkerRunnable.ctor demoDriver false)).1

/-- The driver `Initialize` produces from `demoDriver` when no calibration file
exists. -/
def demoInitialized : UAURDriverOpenCV :=
  (Initialize (demoEnv none none true) demoDriver).getD demoDriver

/-- Result of the capture loop over two frames from `demoInitialized`. -/
def demoLooped : FWorkerRunnable × UAURDriverOpenCV × Nat :=
  (FWorkerRunnable.Loop (demoEnv none none true) demoWorker demoInitialized
    ([demoFrame 3] ++ [demoFrame 7])).getD (demoWorker, demoInitialized, 0)

/-- A sequence of operations of both threads. -/
def demoOps : List Op :=
  [Op.capture (demoFrame 3), Op.getFrame, Op.capture demoBadFrame,
    Op.capture (demoFrame 7), Op.getOrientation]

/-- State after `demoOps` from `demoInitialized`. -/
def demoAfterOps : FWorkerRunnable × UAURDriverOpenCV :=
  (runOps (demoEnv none none true) demoWorker demoInitialized demoOps).getD
    (demoWorker, demoInitialized)

/-- Result of two further loop passes after a `GetFrame` in `demoAfterOps`. -/
def demoHeld : FWorkerRunnable × UAURDriverOpenCV × Nat :=
  (FWorkerRunnable.Loop (demoEnv none none true) demoAfterOps.1 (GetFrame demoAfterOps.2).1
    [demoFrame 5, demoFrame 9]).getD (demoWorker, demoInitialized, 0)

/-- A captured frame as `cv::Mat` delivers it: non-negative size and one pixel
per position. -/
def Mat.WellFormed (m : Mat) : Prop :=
  0 ≤ m.width ∧ 0 ≤ m.height ∧ m.data.length = (m.width * m.height).toNat

instance (m : Mat) : Decidable m.WellFormed := by
  unfold Mat.WellFormed; infer_instance

/-- An operation whose captured frame, if any, is well formed. -/
def Op.WellFormed : Op → Prop
  | Op.capture frame => frame.WellFormed
  | _ => True

instance (op : Op) : Decidable op.WellFormed := by
  cases op <;> unfold Op.WellFormed <;> infer_instance

/-- Every buffer is sized for the driver's resolution: it records that
resolution and its pixel array holds `pixel_count` pixels. -/
def BuffersSized (d : UAURDriverOpenCV) : Prop :=
  ∀ i : Fin 3, (d.FrameInstances i).Resolution = d.Resolution ∧
    (d.FrameInstances i).Image.length = (pixelCount d.Resolution).toNat

instance (d : UAURDriverOpenCV) : Decidable (BuffersSized d) := by
  unfold BuffersSized; infer_instance

/-- Every buffer records the driver's resolution. -/
def ResolutionRecorded (d : UAURDriverOpenCV) : Prop :=
  ∀ i : Fin 3, (d.FrameInstances i).Resolution = d.Resolution

instance (d : UAURDriverOpenCV) : Decidable (ResolutionRecorded d) := by
  unfold ResolutionRecorded; infer_instance

/-- The driver `Initialize` produces from `demoDriver` when both calibration
files exist. -/
def demoCalibrated : Option UAURDriverOpenCV :=
  LoadCalibration (demoEnv (some (demoProps 1)) (some (demoProps 2)) true) demoDriver

/-- A camera that opens and reports 1 x 3 whatever is requested. -/
def demoEnvSmall : Env :=
  { demoEnv none none true with OpenCamera := fun _ => some (fun _ => { X := 1, Y := 3 }) }

/-- A 1 x 3 frame. -/
def demoTallFrame : Mat :=
  { width := 1, height := 3
    data := [{ B := 1, G := 2, R := 3 }, { B := 4, G := 5, R := 6 }, { B := 7, G := 8, R := 9 }] }

/-- Operations after the device opened with 1 x 3. -/
def demoTallOps : List Op :=
  [Op.capture demoTallFrame, Op.getFrame, Op.capture (demoFrame 3), Op.capture demoTallFrame]

/-! ## Lock scopes and interleavings -/

/-- The two critical sections of the driver. -/
inductive Lock where
  | FrameLock
  | OrientationLock
  deriving DecidableEq, Repr

/-- The three role pointers. -/
inductive Role where
  | Worker
  | Available
  | Published
  deriving DecidableEq, Repr

/-- Steps of the driver's methods, one per access to a shared member.
An `FScopeLock` contributes `acquire` where it is constructed and `release`
where it is destroyed; `std::swap(a, b)` is `tmp = a; a = b; b = tmp`. -/
inductive Instr where
  | acquire (l : Lock)
  | release (l : Lock)
  /-- Test `if (bNewFrameReady)`: when the flag is clear the next `skip` steps are jumped over. -/
  | testNewFrameReady (skip : Nat)
  | swapLoad (a : Role)
  | swapMove (a b : Role)
  | swapStore (b : Role)
  | setNewFrameReady (v : Bool)
  | superStoreNewOrientation (measurement : FTransform)
  | setNewOrientationReady (v : Bool)
  | returnPublishedFrame
  | returnCurrentOrientation
  deriving DecidableEq, Repr

/-- The block that ends the loop body of `Run`. `FScopeLock(&Driver->FrameLock);`
names no variable: the lock object is a temporary, destroyed at the end of that
statement, before the exchange. -/
def publishProgram : List Instr :=
  [Instr.acquire Lock.FrameLock, Instr.release Lock.FrameLock,
    Instr.swapLoad Role.Worker, Instr.swapMove Role.Worker Role.Available,
    Instr.swapStore Role.Available, Instr.setNewFrameReady true]

/-- Steps of `StoreNewOrientation`. `FScopeLock(&this->OrientationLock);` is a
temporary as well. -/
def StoreNewOrientationProgram (measurement : FTransform) : List Instr :=
  [Instr.acquire Lock.OrientationLock, Instr.release Lock.OrientationLock,
    Instr.superStoreNewOrientation measurement, Instr.setNewOrientationReady true]

/-- Steps of `GetFrame`. `FScopeLock lock(&this->FrameLock);` is a local of the
`if` block and lives to the end of that block. -/
def GetFrameProgram : List Instr :=
  [Instr.testNewFrameReady 6, Instr.acquire Lock.FrameLock,
    Instr.swapLoad Role.Available, Instr.swapMove Role.Available Role.Published,
    Instr.swapStore Role.Published, Instr.setNewFrameReady false,
    Instr.release Lock.FrameLock, Instr.returnPublishedFrame]

/-- Steps of `GetOrientation`. The lock is a local of the function body; the
returned value is read before the local is destroyed. -/
def GetOrientationProgram : List Instr :=
  [Instr.acquire Lock.OrientationLock, Instr.setNewOrientationReady false,
    Instr.returnCurrentOrientation, Instr.release Lock.OrientationLock]

/-- Whether the executing thread holds `l` after the steps `done`. -/
def holds (l : Lock) (done : List Instr) : Bool :=
  decide (done.count (Instr.release l) < done.count (Instr.acquire l))

/-- Whether the thread holds `l` when it executes step `i` of `prog`. -/
def heldAt (l : Lock) (prog : List Instr) (i : Nat) : Bool := holds l (prog.take i)

/-- Steps of an exchange of role pointers and writes of `bNewFrameReady`. -/
def Instr.updatesFrameState : Instr → Bool
  | Instr.swapLoad _ => true
  | Instr.swapMove _ _ => true
  | Instr.swapStore _ => true
  | Instr.setNewFrameReady _ => true
  | _ => false

/-- Steps that test `bNewFrameReady`. -/
def Instr.testsFrameFlag : Instr → Bool
  | Instr.testNewFrameReady _ => true
  | _ => false

/-- Steps that access the pose or `bNewOrientationReady`. -/
def Instr.touchesOrientation : Instr → Bool
  | Instr.superStoreNewOrientation _ => true
  | Instr.setNewOrientationReady _ => true
  | Instr.returnCurrentOrientation => true
  | _ => false

/-- Every step of `prog` selected by `sel` is executed with `l` held. -/
def guardedBy (l : Lock) (sel : Instr → Bool) (prog : List Instr) : Bool :=
  (List.range prog.length).all fun i =>
    match prog[i]? with
    | some instr => !sel instr || heldAt l prog i
    | none => true

/-- Read a role pointer. -/
def getRole (d : UAURDriverOpenCV) : Role → Fin 3
  | Role.Worker => d.WorkerFrame
  | Role.Available => d.AvailableFrame
  | Role.Published => d.PublishedFrame

/-- Write a role pointer. -/
def setRole (d : UAURDriverOpenCV) (r : Role) (v : Fin 3) : UAURDriverOpenCV :=
  match r with
  | Role.Worker => { d with WorkerFrame := v }
  | Role.Available => { d with AvailableFrame := v }
  | Role.Published => { d with PublishedFrame := v }

/-- A thread in the middle of a method: the steps still to execute and the
temporary of `std::swap`. -/
structure ThreadState where
  code : List Instr
  tmp : Fin 3

/-- Effect of the next step of a thread on its own state and on the driver
(`acquire` and `release` do not touch the driver). -/
def ThreadState.step (t : ThreadState) (d : UAURDriverOpenCV) : ThreadState × UAURDriverOpenCV :=
  match t.code with
  | [] => (t, d)
  | instr :: rest =>
    match instr with
    | Instr.testNewFrameReady skip =>
      ({ t with code := if d.bNewFrameReady then rest else rest.drop skip }, d)
    | Instr.swapLoad a => ({ code := rest, tmp := getRole d a }, d)
    | Instr.swapMove a b => ({ t with code := rest }, setRole d a (getRole d b))
    | Instr.swapStore b => ({ t with code := rest }, setRole d b t.tmp)
    | Instr.setNewFrameReady v => ({ t with code := rest }, { d with bNewFrameReady := v })
    | Instr.superStoreNewOrientation measurement =>
      ({ t with code := rest }, Super_StoreNewOrientation d measurement)
    | Instr.setNewOrientationReady v =>
      ({ t with code := rest }, { d with bNewOrientationReady := v })
    | _ => ({ t with code := rest }, d)

/-- A thread running alone for `fuel` steps. -/
def ThreadState.runAlone : Nat → ThreadState → UAURDriverOpenCV → ThreadState × UAURDriverOpenCV
  | 0, t, d => (t, d)
  | fuel + 1, t, d => ThreadState.runAlone fuel (t.step d).1 (t.step d).2

/-- The two threads. -/
inductive Thread where
  | capture
  | consumer
  deriving DecidableEq, Repr

/-- The capture thread and the consumer, each inside a method, sharing the
driver and the two locks. -/
structure Machine where
  Driver : UAURDriverOpenCV
  FrameLockOwner : Option Thread
  OrientationLockOwner : Option Thread
  capture : ThreadState
  consumer : ThreadState

/-- Owner of a lock. -/
def Machine.owner (m : Machine) : Lock → Option Thread
  | Lock.FrameLock => m.FrameLockOwner
  | Lock.OrientationLock => m.OrientationLockOwner

/-- Record the owner of a lock. -/
def Machine.setOwner (m : Machine) (l : Lock) (o : Option Thread) : Machine :=
  match l with
  | Lock.FrameLock => { m with FrameLockOwner := o }
  | Lock.OrientationLock => { m with OrientationLockOwner := o }

/-- State of one of the threads. -/
def Machine.thread (m : Machine) : Thread → ThreadState
  | Thread.capture => m.capture
  | Thread.consumer => m.consumer

/-- Thread `who` executes its next step. There is no result when the thread has
finished or when it waits for a lock the other thread holds. -/
def Machine.step (m : Machine) (who : Thread) : Option Machine :=
  let t := m.thread who
  match t.code with
  | [] => none
  | instr :: _ =>
    let blocked :=
      match instr with
      | Instr.acquire l => (m.owner l).isSome
      | _ => false
    if blocked then none
    else
      let r := t.step m.Driver
      let m1 :=
        match who with
        | Thread.capture => { m with Driver := r.2, capture := r.1 }
        | Thread.consumer => { m with Driver := r.2, consumer := r.1 }
      match instr with
      | Instr.acquire l => some (m1.setOwner l (some who))
      | Instr.release l => some (m1.setOwner l none)
      | _ => some m1

/-- The threads take steps in the order `schedule` gives. -/
def Machine.run : Machine → List Thread → Option Machine
  | m, [] => some m
  | m, who :: rest =>
    match m.step who with
    | none => none
    | some m1 => Machine.run m1 rest

/-- The driver after `Initialize` and one published frame. -/
def demoPublished : UAURDriverOpenCV :=
  ((FWorkerRunnable.Iteration (demoEnv none none true) demoWorker demoInitialized
    (demoFrame 3)).getD (demoWorker, demoInitialized)).2

/-- The capture thread about to publish a second frame while the consumer
enters `GetFrame`. -/
def demoMachine : Machine :=
  { Driver := demoPublished
    FrameLockOwner := none
    OrientationLockOwner := none
    capture := { code := publishProgram, tmp := 0 }
    consumer := { code := GetFrameProgram, tmp := 0 } }

/-- An interleaving: the consumer runs all of `GetFrame` between the second and
the third step of the capture thread's `std::swap`. -/
def demoSchedule : List Thread :=
  [Thread.capture, Thread.capture, Thread.capture, Thread.capture,
    Thread.consumer, Thread.consumer, Thread.consumer, Thread.consumer,
    Thread.consumer, Thread.consumer, Thread.consumer, Thread.consumer,
    Thread.capture, Thread.capture]

/-! ## Shutdown -/

/-- Calls `Shutdown` makes on the worker object and on its thread. -/
inductive ShutdownCall where
  | Stop
  | WaitForCompletion
  deriving DecidableEq, Repr

/-- Method `UAURDriverOpenCV::Shutdown`: the worker object, the driver and the
calls made, in order. `WaitForCompletion` belongs to the engine's thread class;
`completed w d` is the state of worker and driver when it returns, that is,
when the capture thread has left `Run`. -/
def Shutdown
    (completed : FWorkerRunnable → UAURDriverOpenCV → FWorkerRunnable × UAURDriverOpenCV)
    (w : FWorkerRunnable) (d : UAURDriverOpenCV) :
    FWorkerRunnable × UAURDriverOpenCV × List ShutdownCall :=
  if d.Worker then
    let w1 := w.Stop
    let r :=
      if d.WorkerThread then
        (completed w1 d, [ShutdownCall.Stop, ShutdownCall.WaitForCompletion])
      else ((w1, d), [ShutdownCall.Stop])
    (r.1.1, { r.1.2 with WorkerThread := false, Worker := false }, r.2)
  else (w, d, [])

/-- The capture thread finishes the pass it is in (over `inflight`, if any) and
releases the device. -/
def demoCompleted (inflight : Option Mat) (w : FWorkerRunnable) (d : UAURDriverOpenCV) :
    FWorkerRunnable × UAURDriverOpenCV :=
  match inflight with
  | none => ({ w with VideoCaptureOpened := false }, d)
  | some frame =>
    match FWorkerRunnable.Iteration (demoEnv none none true) w d frame with
    | some (w1, d1) => ({ w1 with VideoCaptureOpened := false }, d1)
    | none => ({ w with VideoCaptureOpened := false }, d)

/-- The sequence contains a publish step (a loop pass over a frame of the size
`res`) that is not followed by any `GetFrame` call. -/
def PublishedSince (res : FIntPoint) (ops : List Op) : Prop :=
  ∃ pre frame post, ops = pre ++ Op.capture frame :: post ∧ frame.Matches res ∧
    Op.getFrame ∉ post

/-- Result of a pass of `demoInitialized` over `demoFrame 3`. -/
def demoPass : FWorkerRunnable × UAURDriverOpenCV :=
  (FWorkerRunnable.Iteration (demoEnv none none true) demoWorker demoInitialized
    (demoFrame 3)).getD (demoWorker, demoInitialized)

/-- A driver configured for 1280 x 720. -/
def demoHD : UAURDriverOpenCV :=
  { demoDriver with Resolution := { X := 1280, Y := 720 } }

/-- A driver whose configured resolution is `-2147483648 x -1`. -/
def demoOverflow : UAURDriverOpenCV :=
  { demoDriver with Resolution := { X := -2147483648, Y := -1 } }

/-- The driver inside the second loop pass (over `demoFrame 7`, after the pass
over `demoFrame 3`): tracking and the pixel loop are done, the publishing block
has not started. -/
def demoSecondPassWritten : UAURDriverOpenCV :=
  match convertPixels (demoFrame 7).data (pixelCount demoPublished.Resolution).toNat 0
      (demoPublished.FrameInstances demoPublished.WorkerFrame).Image with
  | some image =>
    writeWorkerImage (trackOrientation (demoEnv none none true) demoPublished (demoFrame 7)) image
  | none => demoPublished

/-- The capture thread at the publishing block of its second pass while the
consumer enters `GetFrame`. -/
def demoRaceMachine : Machine :=
  { Driver := demoSecondPassWritten
    FrameLockOwner := none
    OrientationLockOwner := none
    capture := { code := publishProgram, tmp := 0 }
    consumer := { code := GetFrameProgram, tmp := 0 } }

/-- The driver after `demoSchedule` from `demoRaceMachine`. -/
def demoRaced : UAURDriverOpenCV :=
  ((Machine.run demoRaceMachine demoSchedule).map fun m => m.Driver).getD demoPublished

/-! ## The pixel loop -/

theorem convertPixels_spec (src : List BGR_Color) :
    ∀ (n idx : Nat) (dest out : List FColor),
      convertPixels src n idx dest = some out →
      out.length = dest.length ∧
      (∀ i, idx ≤ i → i < idx + n → ∃ s p, src[i]? = some s ∧ dest[i]? = some p ∧
        out[i]? = some { p with R := s.R, G := s.G, B := s.B }) ∧
      (∀ i, i < idx ∨ idx + n ≤ i → out[i]? = dest[i]?) := by
  intro n
  induction n with
  | zero =>
    intro idx dest out h
    simp only [convertPixels, Option.some.injEq] at h
    subst h
    refine ⟨rfl, ?_, fun _ _ => rfl⟩
    intro i h1 h2
    omega
  | succ n ih =>
    intro idx dest out h
    unfold convertPixels at h
    cases hs : src[idx]? with
    | none => simp [hs] at h
    | some s =>
      cases hp : dest[idx]? with
      | none => simp [hs, hp] at h
      | some p =>
        simp only [hs, hp] at h
        obtain ⟨hlen, hin, hout⟩ := ih _ _ _ h
        have hidx : idx < dest.length := by
          rcases List.getElem?_eq_some.mp hp with ⟨hlt, _⟩
          exact hlt
        refine ⟨by simpa using hlen, ?_, ?_⟩
        · intro i h1 h2
          rcases Nat.eq_or_lt_of_le h1 with heq | hlt
          · subst heq
            refine ⟨s, p, hs, hp, ?_⟩
            rw [hout idx (Or.inl (Nat.lt_succ_self _))]
            simp [List.getElem?_set, hidx]
          · obtain ⟨s', p', h1', h2', h3'⟩ := hin i (by omega) (by omega)
            refine ⟨s', p', h1', ?_, h3'⟩
            rw [List.getElem?_set_ne (by omega)] at h2'
            exact h2'
        · intro i hi
          rw [hout i (by omega)]
          rw [List.getElem?_set_ne (by omega)]

theorem convertPixels_isSome (src : List BGR_Color) :
    ∀ (n idx : Nat) (dest : List FColor),
      idx + n ≤ src.length → idx + n ≤ dest.length →
      ∃ out, convertPixels src n idx dest = some out := by
  intro n
  induction n with
  | zero => intro idx dest _ _; exact ⟨dest, rfl⟩
  | succ n ih =>
    intro idx dest h1 h2
    unfold convertPixels
    have hs : src[idx]? = some (src[idx]) := List.getElem?_eq_getElem (by omega)
    have hp : dest[idx]? = some (dest[idx]) := List.getElem?_eq_getElem (by omega)
    simp only [hs, hp]
    exact ih _ _ (by omega) (by simp; omega)

/-- After the pixel loop the first `n` pixels of the buffer carry the colour
channels of the first `n` camera pixels. -/
theorem convertPixels_rgb (src : List BGR_Color) (n : Nat) (dest out : List FColor)
    (h : convertPixels src n 0 dest = some out) :
    (out.take n).map FColor.rgb = (src.take n).map BGR_Color.rgb ∧
      (src.take n).length = n ∧ out.length = dest.length := by
  obtain ⟨hlen, hin, _⟩ := convertPixels_spec src n 0 dest out h
  have hsrc : n ≤ src.length := by
    rcases Nat.eq_zero_or_pos n with h0 | hpos
    · omega
    · obtain ⟨s, p, hs, _, _⟩ := hin (n - 1) (by omega) (by omega)
      rcases List.getElem?_eq_some.mp hs with ⟨hlt, _⟩
      omega
  refine ⟨?_, by simp [hsrc], hlen⟩
  apply List.ext_getElem?
  intro i
  by_cases hi : i < n
  · obtain ⟨s, p, hs, _, ho⟩ := hin i (by omega) (by omega)
    simp [List.getElem?_map, List.getElem?_take, hi, hs, ho, FColor.rgb, BGR_Color.rgb]
  · simp [List.getElem?_map, List.getElem?_take, hi]

/-! ## One pass through the loop body -/

theorem trackOrientation_fields (env : Env) (d : UAURDriverOpenCV) (frame : Mat) :
    (trackOrientation env d frame).Resolution = d.Resolution ∧
    (trackOrientation env d frame).FrameInstances = d.FrameInstances ∧
    (trackOrientation env d frame).WorkerFrame = d.WorkerFrame ∧
    (trackOrientation env d frame).AvailableFrame = d.AvailableFrame ∧
    (trackOrientation env d frame).PublishedFrame = d.PublishedFrame ∧
    (trackOrientation env d frame).bNewFrameReady = d.bNewFrameReady := by
  unfold trackOrientation
  by_cases h1 : d.bPerformOrientationTracking = true
  · by_cases h2 : (env.DetectMarkers d.Tracker frame).1 = true
    · simp [h1, h2, StoreNewOrientation, Super_StoreNewOrientation]
    · simp [h1, h2]
  · simp [h1]

/-- Fields of the driver after tracking, pixel loop and publication. -/
theorem published_fields (env : Env) (d : UAURDriverOpenCV) (frame : Mat)
    (image : List FColor) :
    let d1 := publishFrame (writeWorkerImage (trackOrientation env d frame) image)
    d1.WorkerFrame = d.AvailableFrame ∧ d1.AvailableFrame = d.WorkerFrame ∧
    d1.PublishedFrame = d.PublishedFrame ∧ d1.bNewFrameReady = true ∧
    d1.Resolution = d.Resolution ∧
    d1.FrameInstances = Function.update d.FrameInstances d.WorkerFrame
      { d.FrameInstances d.WorkerFrame with Image := image } := by
  obtain ⟨e1, e2, e3, e4, e5, _⟩ := trackOrientation_fields env d frame
  simp [publishFrame, writeWorkerImage, e1, e2, e3, e4, e5]

theorem Iteration_mismatch (env : Env) (w : FWorkerRunnable) (d : UAURDriverOpenCV)
    (frame : Mat) (h : ¬ frame.Matches d.Resolution) :
    FWorkerRunnable.Iteration env w d frame = some ({ w with CapturedFrame := frame }, d) := by
  have h' : frame.width ≠ d.Resolution.X ∨ frame.height ≠ d.Resolution.Y := by
    unfold Mat.Matches at h
    by_cases hw : frame.width = d.Resolution.X
    · exact Or.inr (fun hh => h ⟨hw, hh⟩)
    · exact Or.inl hw
  simp [FWorkerRunnable.Iteration, h']

theorem Iteration_match (env : Env) (w w1 : FWorkerRunnable) (d d1 : UAURDriverOpenCV)
    (frame : Mat) (h : frame.Matches d.Resolution)
    (hr : FWorkerRunnable.Iteration env w d frame = some (w1, d1)) :
    w1 = { w with CapturedFrame := frame } ∧
    ∃ image,
      convertPixels frame.data (pixelCount d.Resolution).toNat 0
        (d.FrameInstances d.WorkerFrame).Image = some image ∧
      d1 = publishFrame (writeWorkerImage (trackOrientation env d frame) image) := by
  obtain ⟨e1, e2, e3, _, _, _⟩ := trackOrientation_fields env d frame
  have h' : ¬ (frame.width ≠ d.Resolution.X ∨ frame.height ≠ d.Resolution.Y) := by
    rintro (hh | hh)
    · exact hh h.1
    · exact hh h.2
  unfold FWorkerRunnable.Iteration at hr
  simp only [h', if_false] at hr
  rw [e1, e2, e3] at hr
  cases hc : convertPixels frame.data (pixelCount d.Resolution).toNat 0
      (d.FrameInstances d.WorkerFrame).Image with
  | none => simp [hc] at hr
  | some image =>
    simp only [hc, Option.some.injEq, Prod.mk.injEq] at hr
    exact ⟨hr.1.symm, image, rfl, hr.2.symm⟩

/-- A pass through the loop body has a result whenever the camera data and the
worker buffer hold at least `pixel_count` pixels. -/
theorem Iteration_isSome (env : Env) (w : FWorkerRunnable) (d : UAURDriverOpenCV)
    (frame : Mat)
    (hsrc : (pixelCount d.Resolution).toNat ≤ frame.data.length)
    (hdst : (pixelCount d.Resolution).toNat ≤ (d.FrameInstances d.WorkerFrame).Image.length) :
    ∃ w1 d1, FWorkerRunnable.Iteration env w d frame = some (w1, d1) := by
  by_cases h : frame.Matches d.Resolution
  · obtain ⟨e1, e2, e3, _, _, _⟩ := trackOrientation_fields env d frame
    have h' : ¬ (frame.width ≠ d.Resolution.X ∨ frame.height ≠ d.Resolution.Y) := by
      rintro (hh | hh)
      · exact hh h.1
      · exact hh h.2
    obtain ⟨image, hc⟩ := convertPixels_isSome frame.data (pixelCount d.Resolution).toNat 0
      (d.FrameInstances d.WorkerFrame).Image (by omega) (by omega)
    unfold FWorkerRunnable.Iteration
    simp only [h', if_false]
    rw [e1, e2, e3, hc]
    exact ⟨_, _, rfl⟩
  · exact ⟨_, _, Iteration_mismatch env w d frame h⟩

theorem Iteration_preserves (env : Env) (w w1 : FWorkerRunnable) (d d1 : UAURDriverOpenCV)
    (frame : Mat) (hr : FWorkerRunnable.Iteration env w d frame = some (w1, d1)) :
    w1.bContinue = w.bContinue ∧ d1.Resolution = d.Resolution := by
  by_cases h : frame.Matches d.Resolution
  · obtain ⟨hw, image, _, hd⟩ := Iteration_match env w w1 d d1 frame h hr
    obtain ⟨_, _, _, _, e5, _⟩ := published_fields env d frame image
    subst hw hd
    exact ⟨rfl, e5⟩
  · rw [Iteration_mismatch env w d frame h] at hr
    simp only [Option.some.injEq, Prod.mk.injEq] at hr
    obtain ⟨hw, hd⟩ := hr
    subst hw hd
    exact ⟨rfl, rfl⟩

/-! ## The consumer side -/

theorem GetFrame_ready (d : UAURDriverOpenCV) (h : d.bNewFrameReady = true) :
    (GetFrame d).2 = d.AvailableFrame ∧ (GetFrame d).1.FrameInstances = d.FrameInstances ∧
    (GetFrame d).1.AvailableFrame = d.PublishedFrame ∧
    (GetFrame d).1.WorkerFrame = d.WorkerFrame ∧
    (GetFrame d).1.PublishedFrame = d.AvailableFrame ∧
    (GetFrame d).1.bNewFrameReady = false ∧
    (GetFrame d).1.Resolution = d.Resolution := by
  simp [GetFrame, h]

theorem GetFrame_not_ready (d : UAURDriverOpenCV) (h : d.bNewFrameReady = false) :
    GetFrame d = (d, d.PublishedFrame) := by
  simp [GetFrame, h]

/-! ## The capture loop -/

/-- Running the loop over frames of the expected size, the last of which is
`last`: every frame takes one pass, and the buffer left in `AvailableFrame`
carries the colour channels of `last`. -/
theorem Loop_last_frame (env : Env) (last : Mat) :
    ∀ (frames : List Mat) (w w1 : FWorkerRunnable) (d d1 : UAURDriverOpenCV) (n : Nat),
      w.bContinue = true →
      (∀ c ∈ frames ++ [last], c.Matches d.Resolution) →
      FWorkerRunnable.Loop env w d (frames ++ [last]) = some (w1, d1, n) →
      n = frames.length + 1 ∧ d1.bNewFrameReady = true ∧
      (((d1.FrameInstances d1.AvailableFrame).Image.take (pixelCount d.Resolution).toNat).map
          FColor.rgb =
        (last.data.take (pixelCount d.Resolution).toNat).map BGR_Color.rgb) ∧
      (last.data.take (pixelCount d.Resolution).toNat).length =
        (pixelCount d.Resolution).toNat := by
  intro frames
  induction frames with
  | nil =>
    intro w w1 d d1 n hc hsize hrun
    have hm : last.Matches d.Resolution := hsize last (by simp)
    simp only [List.nil_append, FWorkerRunnable.Loop, hc, if_true] at hrun
    cases hi : FWorkerRunnable.Iteration env w d last with
    | none => simp [hi] at hrun
    | some r =>
      obtain ⟨w2, d2⟩ := r
      simp only [hi, Option.some.injEq, Prod.mk.injEq] at hrun
      obtain ⟨_, hd, hn⟩ := hrun
      subst hd
      obtain ⟨_, image, hconv, hd2⟩ := Iteration_match env w w2 d d2 last hm hi
      obtain ⟨_, e2, _, e4, _, e6⟩ := published_fields env d last image
      obtain ⟨hrgb, hlen, _⟩ := convertPixels_rgb _ _ _ _ hconv
      rw [hd2]
      refine ⟨by simp [← hn], e4, ?_, hlen⟩
      rw [e2, e6]
      simpa using hrgb
  | cons c cs ih =>
    intro w w1 d d1 n hc hsize hrun
    simp only [List.cons_append, FWorkerRunnable.Loop, hc, if_true] at hrun
    cases hi : FWorkerRunnable.Iteration env w d c with
    | none => simp [hi] at hrun
    | some r =>
      obtain ⟨w2, d2⟩ := r
      simp only [hi] at hrun
      cases hl : FWorkerRunnable.Loop env w2 d2 (cs ++ [last]) with
      | none => simp [hl] at hrun
      | some r2 =>
        obtain ⟨w3, d3, m⟩ := r2
        simp only [List.append_eq, hl, Option.some.injEq, Prod.mk.injEq] at hrun
        obtain ⟨_, hd, hn⟩ := hrun
        subst hd
        obtain ⟨hb, hres⟩ := Iteration_preserves env w w2 d d2 c hi
        have hsize2 : ∀ c' ∈ cs ++ [last], c'.Matches d2.Resolution := by
          intro c' hc'
          rw [hres]
          exact hsize c' (by simp only [List.cons_append, List.mem_cons]; exact Or.inr hc')
        obtain ⟨hm, hf, hrgb, hlen⟩ := ih w2 w3 d2 d3 m (by rw [hb, hc]) hsize2 hl
        rw [hres] at hrgb hlen
        exact ⟨by simp [← hn, hm], hf, hrgb, hlen⟩

/-- C1 (latest wins). From the state set up by `Initialize`, let the capture
loop run over frames `c_1 .. c_N` (`N >= 1`, written `frames ++ [last]`), each
of the expected size, with no `GetFrame` in between. Then the loop made `N`
passes, and the buffer the next `GetFrame` returns carries, in its first
`pixel_count` pixels, exactly the colour channels of the `pixel_count` pixels
of `c_N`: nothing of `c_1 .. c_(N-1)` is visible. -/
theorem latest_wins (env : Env) (d0 d d1 : UAURDriverOpenCV) (w w1 : FWorkerRunnable)
    (frames : List Mat) (last : Mat) (n : Nat)
    (_hinit : Initialize env d0 = some d)
    (hcont : w.bContinue = true)
    (hsize : ∀ c ∈ frames ++ [last], c.Matches d.Resolution)
    (hrun : FWorkerRunnable.Loop env w d (frames ++ [last]) = some (w1, d1, n)) :
    n = frames.length + 1 ∧
    ((((GetFrame d1).1.FrameInstances (GetFrame d1).2).Image.take
        (pixelCount d.Resolution).toNat).map FColor.rgb =
      (last.data.take (pixelCount d.Resolution).toNat).map BGR_Color.rgb) ∧
    (last.data.take (pixelCount d.Resolution).toNat).length =
      (pixelCount d.Resolution).toNat := by
  obtain ⟨hn, hf, hrgb, hlen⟩ := Loop_last_frame env last frames w w1 d d1 n hcont hsize hrun
  obtain ⟨g1, g2, _⟩ := GetFrame_ready d1 hf
  rw [g1, g2]
  exact ⟨hn, hrgb, hlen⟩

/-- Latest-wins at a concrete run: two frames from `demoInitialized`. -/
theorem latest_wins_witness :
    Initialize (demoEnv none none true) demoDriver = some demoInitialized ∧
    FWorkerRunnable.Loop (demoEnv none none true) demoWorker demoInitialized
      ([demoFrame 3] ++ [demoFrame 7]) = some demoLooped ∧
    (demoLooped.2.2 = [demoFrame 3].length + 1 ∧
    ((((GetFrame demoLooped.2.1).1.FrameInstances (GetFrame demoLooped.2.1).2).Image.take
        (pixelCount demoInitialized.Resolution).toNat).map FColor.rgb =
      ((demoFrame 7).data.take (pixelCount demoInitialized.Resolution).toNat).map
        BGR_Color.rgb) ∧
    ((demoFrame 7).data.take (pixelCount demoInitialized.Resolution).toNat).length =
      (pixelCount demoInitialized.Resolution).toNat) :=
  ⟨rfl, rfl,
    latest_wins (demoEnv none none true) demoDriver demoInitialized demoLooped.2.1
      demoWorker demoLooped.1 [demoFrame 3] (demoFrame 7) demoLooped.2.2 rfl rfl
      (by decide) rfl⟩

/-- C2. Two consecutive `GetFrame` calls with nothing in between return the same
pointer into `FrameInstances`, the buffer it points to has the same content at
both returns, `IsNewFrameAvailable` is false after the first call, and the
second call changes nothing. -/
theorem GetFrame_twice (d : UAURDriverOpenCV) :
    (GetFrame (GetFrame d).1).2 = (GetFrame d).2 ∧
    (GetFrame (GetFrame d).1).1.FrameInstances (GetFrame (GetFrame d).1).2 =
      (GetFrame d).1.FrameInstances (GetFrame d).2 ∧
    IsNewFrameAvailable (GetFrame d).1 = false ∧
    (GetFrame (GetFrame d).1).1 = (GetFrame d).1 := by
  cases h : d.bNewFrameReady <;> simp [GetFrame, IsNewFrameAvailable, h]

/-! ## The role invariant -/

theorem Initialize_fields (env : Env) (d0 d : UAURDriverOpenCV)
    (h : Initialize env d0 = some d) :
    d.WorkerFrame = 0 ∧ d.AvailableFrame = 1 ∧ d.PublishedFrame = 2 ∧
    d.bNewFrameReady = false ∧ d.bNewOrientationReady = false ∧
    d.Status = EAURDriverStatus.DS_Disconnected := by
  unfold Initialize at h
  simp only at h
  split at h
  · exact absurd h (by simp)
  · rename_i d2 hl
    simp only [Option.some.injEq] at h
    unfold LoadCalibration at hl
    simp only at hl
    split at hl
    · exact absurd hl (by simp)
    · simp only [Option.some.injEq] at hl
      subst hl
      subst h
      simp [InitializeWorker]

theorem RolesDistinct_Initialize (env : Env) (d0 d : UAURDriverOpenCV)
    (h : Initialize env d0 = some d) : RolesDistinct d := by
  obtain ⟨h1, h2, h3, _⟩ := Initialize_fields env d0 d h
  unfold RolesDistinct
  rw [h1, h2, h3]
  decide

theorem RolesDistinct_GetFrame (d : UAURDriverOpenCV) (h : RolesDistinct d) :
    RolesDistinct (GetFrame d).1 := by
  obtain ⟨h1, h2, h3, h4⟩ := h
  cases hf : d.bNewFrameReady
  · rw [GetFrame_not_ready d hf]
    exact ⟨h1, h2, h3, h4⟩
  · obtain ⟨_, _, g3, g4, g5, _⟩ := GetFrame_ready d hf
    unfold RolesDistinct
    rw [g3, g4, g5]
    refine ⟨h3, fun e => h2 e.symm, h1, fun i => ?_⟩
    rcases h4 i with e | e | e
    · exact Or.inl e
    · exact Or.inr (Or.inr e)
    · exact Or.inr (Or.inl e)

theorem RolesDistinct_GetOrientation (d : UAURDriverOpenCV) (h : RolesDistinct d) :
    RolesDistinct (GetOrientation d).1 := h

/-- A pass through the loop body keeps the role invariant, leaves
`PublishedFrame` alone and does not write the buffer it points to. -/
theorem Iteration_roles (env : Env) (w w1 : FWorkerRunnable) (d d1 : UAURDriverOpenCV)
    (frame : Mat) (hr : FWorkerRunnable.Iteration env w d frame = some (w1, d1))
    (h : RolesDistinct d) :
    RolesDistinct d1 ∧ d1.PublishedFrame = d.PublishedFrame ∧
    d1.FrameInstances d.PublishedFrame = d.FrameInstances d.PublishedFrame := by
  by_cases hm : frame.Matches d.Resolution
  · obtain ⟨_, image, _, hd⟩ := Iteration_match env w w1 d d1 frame hm hr
    obtain ⟨e1, e2, e3, _, _, e6⟩ := published_fields env d frame image
    rw [← hd] at e1 e2 e3 e6
    obtain ⟨h1, h2, h3, h4⟩ := h
    refine ⟨?_, e3, ?_⟩
    · unfold RolesDistinct
      rw [e1, e2, e3]
      refine ⟨fun e => h1 e.symm, h3, h2, fun i => ?_⟩
      rcases h4 i with e | e | e
      · exact Or.inr (Or.inl e)
      · exact Or.inl e
      · exact Or.inr (Or.inr e)
    · rw [e6, Function.update_noteq (fun e => h3 e.symm)]
  · rw [Iteration_mismatch env w d frame hm] at hr
    simp only [Option.some.injEq, Prod.mk.injEq] at hr
    rw [← hr.2]
    exact ⟨h, rfl, rfl⟩

theorem RolesDistinct_stepOp (env : Env) (w w1 : FWorkerRunnable) (d d1 : UAURDriverOpenCV)
    (op : Op) (hr : stepOp env w d op = some (w1, d1)) (h : RolesDistinct d) :
    RolesDistinct d1 := by
  cases op with
  | capture frame => exact (Iteration_roles env w w1 d d1 frame hr h).1
  | getFrame =>
    simp only [stepOp, Option.some.injEq, Prod.mk.injEq] at hr
    rw [← hr.2]
    exact RolesDistinct_GetFrame d h
  | getOrientation =>
    simp only [stepOp, Option.some.injEq, Prod.mk.injEq] at hr
    rw [← hr.2]
    exact RolesDistinct_GetOrientation d h

theorem RolesDistinct_runOps (env : Env) :
    ∀ (ops : List Op) (w w1 : FWorkerRunnable) (d d1 : UAURDriverOpenCV),
      runOps env w d ops = some (w1, d1) → RolesDistinct d → RolesDistinct d1 := by
  intro ops
  induction ops with
  | nil =>
    intro w w1 d d1 hr h
    simp only [runOps, Option.some.injEq, Prod.mk.injEq] at hr
    rw [← hr.2]
    exact h
  | cons op rest ih =>
    intro w w1 d d1 hr h
    simp only [runOps] at hr
    cases hs : stepOp env w d op with
    | none => simp [hs] at hr
    | some r =>
      obtain ⟨w2, d2⟩ := r
      simp only [hs] at hr
      exact ih w2 w1 d2 d1 hr (RolesDistinct_stepOp env w w2 d d2 op hs h)

/-- Role invariant when operations do not overlap. In every state reached from
the state set up by `Initialize` by a finite sequence of capture-loop passes
and consumer calls, each run to its end before the next starts, `WorkerFrame`,
`AvailableFrame` and `PublishedFrame` are pairwise distinct and every element
of `FrameInstances` is pointed to by one of them. When a `GetFrame` overlaps a
publishing block this fails (section on interleaved publication). -/
theorem roles_invariant (env : Env) (d0 d d1 : UAURDriverOpenCV) (w w1 : FWorkerRunnable)
    (ops : List Op)
    (hinit : Initialize env d0 = some d)
    (hops : runOps env w d ops = some (w1, d1)) :
    d1.WorkerFrame ≠ d1.AvailableFrame ∧ d1.AvailableFrame ≠ d1.PublishedFrame ∧
    d1.WorkerFrame ≠ d1.PublishedFrame ∧
    ∀ i : Fin 3, i = d1.WorkerFrame ∨ i = d1.AvailableFrame ∨ i = d1.PublishedFrame :=
  RolesDistinct_runOps env ops w w1 d d1 hops (RolesDistinct_Initialize env d0 d hinit)

/-- C4. After `StoreNewOrientation A` and `StoreNewOrientation B`,
`IsNewOrientationAvailable` is true, `GetOrientation` returns `B` and clears
the flag, and a second `GetOrientation` returns `B` again. -/
theorem orientation_latest (d : UAURDriverOpenCV) (A B : FTransform) :
    IsNewOrientationAvailable (StoreNewOrientation (StoreNewOrientation d A) B) = true ∧
    (GetOrientation (StoreNewOrientation (StoreNewOrientation d A) B)).2 = B ∧
    IsNewOrientationAvailable
      (GetOrientation (StoreNewOrientation (StoreNewOrientation d A) B)).1 = false ∧
    (GetOrientation
      (GetOrientation (StoreNewOrientation (StoreNewOrientation d A) B)).1).2 = B := by
  simp [StoreNewOrientation, Super_StoreNewOrientation, GetOrientation,
    IsNewOrientationAvailable]

/-! ## The buffer held by the consumer -/

theorem Loop_roles (env : Env) :
    ∀ (frames : List Mat) (w w1 : FWorkerRunnable) (d d1 : UAURDriverOpenCV) (n : Nat),
      FWorkerRunnable.Loop env w d frames = some (w1, d1, n) → RolesDistinct d →
      RolesDistinct d1 ∧ d1.PublishedFrame = d.PublishedFrame ∧
      d1.FrameInstances d.PublishedFrame = d.FrameInstances d.PublishedFrame := by
  intro frames
  induction frames with
  | nil =>
    intro w w1 d d1 n hr h
    simp only [FWorkerRunnable.Loop, Option.some.injEq, Prod.mk.injEq] at hr
    rw [← hr.2.1]
    exact ⟨h, rfl, rfl⟩
  | cons c cs ih =>
    intro w w1 d d1 n hr h
    simp only [FWorkerRunnable.Loop] at hr
    cases hb : w.bContinue
    · simp only [hb, Bool.false_eq_true, if_false, Option.some.injEq, Prod.mk.injEq] at hr
      rw [← hr.2.1]
      exact ⟨h, rfl, rfl⟩
    · simp only [hb, if_true] at hr
      cases hi : FWorkerRunnable.Iteration env w d c with
      | none => simp [hi] at hr
      | some r =>
        obtain ⟨w2, d2⟩ := r
        simp only [hi] at hr
        cases hl : FWorkerRunnable.Loop env w2 d2 cs with
        | none => simp [hl] at hr
        | some r2 =>
          obtain ⟨w3, d3, m⟩ := r2
          simp only [hl, Option.some.injEq, Prod.mk.injEq] at hr
          obtain ⟨i1, i2, i3⟩ := Iteration_roles env w w2 d d2 c hi h
          obtain ⟨l1, l2, l3⟩ := ih w2 w3 d2 d3 m hl i1
          rw [← hr.2.1]
          rw [i2] at l2 l3
          exact ⟨l1, l2, by rw [l3, i3]⟩

/-- A run of the loop that has a result has one after every initial part of the
frames. -/
theorem Loop_take (env : Env) :
    ∀ (frames : List Mat) (w : FWorkerRunnable) (d : UAURDriverOpenCV)
      (r : FWorkerRunnable × UAURDriverOpenCV × Nat),
      FWorkerRunnable.Loop env w d frames = some r →
      ∀ k, ∃ r1, FWorkerRunnable.Loop env w d (frames.take k) = some r1 := by
  intro frames
  induction frames with
  | nil =>
    intro w d r _ k
    exact ⟨(w, d, 0), by simp [FWorkerRunnable.Loop]⟩
  | cons c cs ih =>
    intro w d r hr k
    cases k with
    | zero => exact ⟨(w, d, 0), by simp [FWorkerRunnable.Loop]⟩
    | succ k =>
      simp only [List.take_succ_cons, FWorkerRunnable.Loop]
      simp only [FWorkerRunnable.Loop] at hr
      cases hb : w.bContinue
      · exact ⟨(w, d, 0), by simp⟩
      · simp only [hb, if_true] at hr ⊢
        cases hi : FWorkerRunnable.Iteration env w d c with
        | none => simp [hi] at hr
        | some r0 =>
          obtain ⟨w2, d2⟩ := r0
          simp only [hi] at hr ⊢
          cases hl : FWorkerRunnable.Loop env w2 d2 cs with
          | none => simp [hl] at hr
          | some r2 =>
            obtain ⟨r3, h3⟩ := ih w2 d2 r2 hl k
            obtain ⟨w4, d4, m⟩ := r3
            exact ⟨(w4, d4, m + 1), by simp [h3]⟩

/-- The consumer's buffer when operations do not overlap. In a state reached
from `Initialize` by operations each run to its end before the next starts, let
`GetFrame` return the pointer `P`, and let the capture loop then run over any
frames with no further `GetFrame`. After every initial part of that run (that
is, before each write of the pixel loop and at the end) `WorkerFrame` is not
`P`, `PublishedFrame` is still `P`, and the buffer `P` points to is as
`GetFrame` returned it. When the `GetFrame` overlaps a publishing block this
fails (section on interleaved publication). -/
theorem consumer_buffer_untouched (env : Env) (d0 d d1 : UAURDriverOpenCV)
    (w w1 : FWorkerRunnable) (ops : List Op) (frames : List Mat)
    (r : FWorkerRunnable × UAURDriverOpenCV × Nat)
    (hinit : Initialize env d0 = some d)
    (hops : runOps env w d ops = some (w1, d1))
    (hloop : FWorkerRunnable.Loop env w1 (GetFrame d1).1 frames = some r) :
    ∀ k, ∃ w2 d2 n,
      FWorkerRunnable.Loop env w1 (GetFrame d1).1 (frames.take k) = some (w2, d2, n) ∧
      d2.WorkerFrame ≠ (GetFrame d1).2 ∧ d2.PublishedFrame = (GetFrame d1).2 ∧
      d2.FrameInstances (GetFrame d1).2 = (GetFrame d1).1.FrameInstances (GetFrame d1).2 := by
  intro k
  have hroles : RolesDistinct (GetFrame d1).1 :=
    RolesDistinct_GetFrame d1
      (RolesDistinct_runOps env ops w w1 d d1 hops (RolesDistinct_Initialize env d0 d hinit))
  obtain ⟨r1, hr1⟩ := Loop_take env frames w1 (GetFrame d1).1 r hloop k
  obtain ⟨w2, d2, n⟩ := r1
  obtain ⟨l1, l2, l3⟩ := Loop_roles env (frames.take k) w1 w2 (GetFrame d1).1 d2 n hr1 hroles
  have hP : (GetFrame d1).2 = (GetFrame d1).1.PublishedFrame := rfl
  refine ⟨w2, d2, n, hr1, ?_, ?_, ?_⟩
  · rw [hP, ← l2]
    exact l1.2.2.1
  · rw [hP]
    exact l2
  · rw [hP]
    exact l3

/-- The role invariant after `demoOps`. -/
theorem roles_invariant_witness :
    Initialize (demoEnv none none true) demoDriver = some demoInitialized ∧
    runOps (demoEnv none none true) demoWorker demoInitialized demoOps = some demoAfterOps ∧
    (demoAfterOps.2.WorkerFrame ≠ demoAfterOps.2.AvailableFrame ∧
      demoAfterOps.2.AvailableFrame ≠ demoAfterOps.2.PublishedFrame ∧
      demoAfterOps.2.WorkerFrame ≠ demoAfterOps.2.PublishedFrame ∧
      ∀ i : Fin 3, i = demoAfterOps.2.WorkerFrame ∨ i = demoAfterOps.2.AvailableFrame ∨
        i = demoAfterOps.2.PublishedFrame) :=
  ⟨rfl, rfl,
    roles_invariant (demoEnv none none true) demoDriver demoInitialized demoAfterOps.2
      demoWorker demoAfterOps.1 demoOps rfl rfl⟩

/-- The held buffer during two loop passes after `demoOps` and a `GetFrame`. -/
theorem consumer_buffer_untouched_witness :
    Initialize (demoEnv none none true) demoDriver = some demoInitialized ∧
    runOps (demoEnv none none true) demoWorker demoInitialized demoOps = some demoAfterOps ∧
    FWorkerRunnable.Loop (demoEnv none none true) demoAfterOps.1 (GetFrame demoAfterOps.2).1
      [demoFrame 5, demoFrame 9] = some demoHeld ∧
    ∀ k, ∃ w2 d2 n,
      FWorkerRunnable.Loop (demoEnv none none true) demoAfterOps.1 (GetFrame demoAfterOps.2).1
        ([demoFrame 5, demoFrame 9].take k) = some (w2, d2, n) ∧
      d2.WorkerFrame ≠ (GetFrame demoAfterOps.2).2 ∧
      d2.PublishedFrame = (GetFrame demoAfterOps.2).2 ∧
      d2.FrameInstances (GetFrame demoAfterOps.2).2 =
        (GetFrame demoAfterOps.2).1.FrameInstances (GetFrame demoAfterOps.2).2 :=
  ⟨rfl, rfl, rfl,
    consumer_buffer_untouched (demoEnv none none true) demoDriver demoInitialized
      demoAfterOps.2 demoWorker demoAfterOps.1 demoOps [demoFrame 5, demoFrame 9] demoHeld
      rfl rfl rfl⟩

/-! ## Frames of unexpected size -/

/-- C7 (size-mismatch skip). A captured frame whose width differs from
`Resolution.X` or whose height differs from `Resolution.Y` leaves the whole
driver state as it was (role pointers, buffers, both flags, the pose), whatever
the marker tracker would report, and leaves `bContinue` as it was. A frame of
the expected size is published: provided the camera data and the worker buffer
hold `pixel_count` pixels, the pass exchanges `WorkerFrame` and
`AvailableFrame` and sets `bNewFrameReady`. -/
theorem size_mismatch_skip (env : Env) (w : FWorkerRunnable) (d : UAURDriverOpenCV)
    (frame : Mat) :
    ((frame.width ≠ d.Resolution.X ∨ frame.height ≠ d.Resolution.Y) →
      FWorkerRunnable.Iteration env w d frame = some ({ w with CapturedFrame := frame }, d) ∧
      ({ w with CapturedFrame := frame } : FWorkerRunnable).bContinue = w.bContinue) ∧
    ((frame.width = d.Resolution.X ∧ frame.height = d.Resolution.Y) →
      (pixelCount d.Resolution).toNat ≤ frame.data.length →
      (pixelCount d.Resolution).toNat ≤ (d.FrameInstances d.WorkerFrame).Image.length →
      ∃ w1 d1, FWorkerRunnable.Iteration env w d frame = some (w1, d1) ∧
        w1.bContinue = w.bContinue ∧
        d1.WorkerFrame = d.AvailableFrame ∧ d1.AvailableFrame = d.WorkerFrame ∧
        d1.bNewFrameReady = true) := by
  constructor
  · intro h
    have hm : ¬ frame.Matches d.Resolution := by
      intro hh
      rcases h with h | h
      · exact h hh.1
      · exact h hh.2
    exact ⟨Iteration_mismatch env w d frame hm, rfl⟩
  · intro hm hsrc hdst
    obtain ⟨w1, d1, hr⟩ := Iteration_isSome env w d frame hsrc hdst
    obtain ⟨hw, image, _, hd⟩ := Iteration_match env w w1 d d1 frame hm hr
    obtain ⟨e1, e2, _, e4, _, _⟩ := published_fields env d frame image
    rw [← hd] at e1 e2 e4
    exact ⟨w1, d1, hr, by rw [hw], e1, e2, e4⟩

/-- A 1 x 1 frame is skipped and a 2 x 1 frame is published by a driver
configured for 2 x 1. -/
theorem size_mismatch_skip_witness :
    (FWorkerRunnable.Iteration (demoEnv none none true) demoWorker demoInitialized
        demoBadFrame = some ({ demoWorker with CapturedFrame := demoBadFrame }, demoInitialized) ∧
      ({ demoWorker with CapturedFrame := demoBadFrame } : FWorkerRunnable).bContinue =
        demoWorker.bContinue) ∧
    ∃ w1 d1, FWorkerRunnable.Iteration (demoEnv none none true) demoWorker demoInitialized
        (demoFrame 3) = some (w1, d1) ∧
      w1.bContinue = demoWorker.bContinue ∧
      d1.WorkerFrame = demoInitialized.AvailableFrame ∧
      d1.AvailableFrame = demoInitialized.WorkerFrame ∧
      d1.bNewFrameReady = true :=
  ⟨(size_mismatch_skip (demoEnv none none true) demoWorker demoInitialized demoBadFrame).1
      (Or.inl (by decide)),
    (size_mismatch_skip (demoEnv none none true) demoWorker demoInitialized (demoFrame 3)).2
      ⟨by decide, by decide⟩ (by decide) (by decide)⟩

/-! ## Failure to open the device -/

theorem consumer_calls_keep_flags (env : Env) :
    ∀ (ops : List Op) (w : FWorkerRunnable) (d : UAURDriverOpenCV),
      (∀ op ∈ ops, op = Op.getFrame ∨ op = Op.getOrientation) →
      d.bNewFrameReady = false → d.bNewOrientationReady = false →
      ∃ d2, runOps env w d ops = some (w, d2) ∧
        IsNewFrameAvailable d2 = false ∧ IsNewOrientationAvailable d2 = false ∧
        d2.FrameInstances = d.FrameInstances ∧ d2.WorkerFrame = d.WorkerFrame ∧
        d2.AvailableFrame = d.AvailableFrame ∧ d2.PublishedFrame = d.PublishedFrame ∧
        d2.CurrentOrientation = d.CurrentOrientation := by
  intro ops
  induction ops with
  | nil =>
    intro w d _ h1 h2
    exact ⟨d, rfl, h1, h2, rfl, rfl, rfl, rfl, rfl⟩
  | cons op rest ih =>
    intro w d hops h1 h2
    have hrest : ∀ op' ∈ rest, op' = Op.getFrame ∨ op' = Op.getOrientation :=
      fun op' h => hops op' (List.mem_cons_of_mem _ h)
    rcases hops op (List.mem_cons_self _ _) with e | e
    · subst e
      have hg : GetFrame d = (d, d.PublishedFrame) := GetFrame_not_ready d h1
      obtain ⟨d2, hr, k⟩ := ih w d hrest h1 h2
      exact ⟨d2, by simp [runOps, stepOp, hg, hr], k⟩
    · subst e
      have hg : (GetOrientation d).1 = d := by
        cases d
        simp only [GetOrientation] at h2 ⊢
        simp [h2]
      obtain ⟨d2, hr, k⟩ := ih w d hrest h1 h2
      exact ⟨d2, by simp [runOps, stepOp, hg, hr], k⟩

/-- C8 (device-open failure is terminal). If the capture device does not open,
`Run` from the state set up by `Initialize` returns after zero passes through
the loop body whatever frames the device could deliver; the driver is as
`Initialize` left it except for `DiagnosticText`, so role pointers, buffers,
pose and both flags are unchanged; `IsNewFrameAvailable` and
`IsNewOrientationAvailable` are false and remain false, with roles, buffers and
pose unchanged, under any later sequence of `GetFrame` / `GetOrientation`
calls. -/
theorem open_failure_terminal (env : Env) (d0 d : UAURDriverOpenCV) (w : FWorkerRunnable)
    (frames : List Mat)
    (hinit : Initialize env d0 = some d)
    (hopen : env.OpenCamera d.CameraIndex = none) :
    ∃ w1 d1, FWorkerRunnable.Run env w d frames = some (w1, d1, 0) ∧
      d1 = { d with DiagnosticText := "START" } ∧
      IsNewFrameAvailable d1 = false ∧ IsNewOrientationAvailable d1 = false ∧
      ∀ ops : List Op, (∀ op ∈ ops, op = Op.getFrame ∨ op = Op.getOrientation) →
        ∃ d2, runOps env w1 d1 ops = some (w1, d2) ∧
          IsNewFrameAvailable d2 = false ∧ IsNewOrientationAvailable d2 = false ∧
          d2.FrameInstances = d.FrameInstances ∧ d2.WorkerFrame = d.WorkerFrame ∧
          d2.AvailableFrame = d.AvailableFrame ∧ d2.PublishedFrame = d.PublishedFrame ∧
          d2.CurrentOrientation = d.CurrentOrientation := by
  obtain ⟨_, _, _, h4, h5, _⟩ := Initialize_fields env d0 d hinit
  have hloop : ∀ (w' : FWorkerRunnable) (d' : UAURDriverOpenCV), w'.bContinue = false →
      FWorkerRunnable.Loop env w' d' frames = some (w', d', 0) := by
    intro w' d' hb
    cases frames with
    | nil => rfl
    | cons c cs => simp [FWorkerRunnable.Loop, hb]
  refine ⟨{ w with VideoCaptureOpened := false, bContinue := false },
    { d with DiagnosticText := "START" }, ?_, rfl, h4, h5, ?_⟩
  · simp only [FWorkerRunnable.Run, FWorkerRunnable.OpenDevice, hopen]
    rw [hloop _ _ rfl]
  · intro ops hops
    exact consumer_calls_keep_flags env ops _ _ hops h4 h5

/-- A camera that does not open, with two frames on offer. -/
theorem open_failure_terminal_witness :
    ∃ w1 d1, FWorkerRunnable.Run (demoEnv none none false) demoWorker demoInitialized
        [demoFrame 3, demoFrame 7] = some (w1, d1, 0) ∧
      d1 = { demoInitialized with DiagnosticText := "START" } ∧
      IsNewFrameAvailable d1 = false ∧ IsNewOrientationAvailable d1 = false ∧
      ∀ ops : List Op, (∀ op ∈ ops, op = Op.getFrame ∨ op = Op.getOrientation) →
        ∃ d2, runOps (demoEnv none none false) w1 d1 ops = some (w1, d2) ∧
          IsNewFrameAvailable d2 = false ∧ IsNewOrientationAvailable d2 = false ∧
          d2.FrameInstances = demoInitialized.FrameInstances ∧
          d2.WorkerFrame = demoInitialized.WorkerFrame ∧
          d2.AvailableFrame = demoInitialized.AvailableFrame ∧
          d2.PublishedFrame = demoInitialized.PublishedFrame ∧
          d2.CurrentOrientation = demoInitialized.CurrentOrientation :=
  open_failure_terminal (demoEnv none none false) demoDriver demoInitialized demoWorker
    [demoFrame 3, demoFrame 7] rfl rfl

/-! ## Calibration -/

/-- What `LoadCalibration` retains: the fallback file's intrinsics whenever the
fallback load succeeds, otherwise the primary file's if that load succeeded,
otherwise the prior value. -/
theorem LoadCalibration_retained (env : Env) (d d1 : UAURDriverOpenCV)
    (h : LoadCalibration env d = some d1) :
    d1.CameraProperties =
      match env.CalibrationStore env.CalibrationFallbackFileFullPath with
      | some fallback => fallback
      | none =>
        match env.CalibrationStore env.CalibrationFileFullPath with
        | some primary => primary
        | none => d.CameraProperties := by
  unfold LoadCalibration at h
  simp only at h
  split at h
  · exact absurd h (by simp)
  · simp only [Option.some.injEq] at h
    subst h
    simp only [FOpenCVCameraProperties.LoadFromFile]
    cases env.CalibrationStore env.CalibrationFallbackFileFullPath <;>
      cases env.CalibrationStore env.CalibrationFileFullPath <;> rfl

/-- C9 at the input where both calibration files load: `LoadCalibration`
returns, and the intrinsics it retains are those of the fallback file, which
differ from those of the primary file. -/
theorem fallback_overrides_primary :
    demoCalibrated.map (fun d => d.CameraProperties) = some (demoProps 2) ∧
    (demoEnv (some (demoProps 1)) (some (demoProps 2)) true).CalibrationStore
      (demoEnv (some (demoProps 1)) (some (demoProps 2)) true).CalibrationFileFullPath =
      some (demoProps 1) ∧
    (demoEnv (some (demoProps 1)) (some (demoProps 2)) true).CalibrationStore
      (demoEnv (some (demoProps 1)) (some (demoProps 2)) true).CalibrationFallbackFileFullPath =
      some (demoProps 2) ∧
    demoProps 1 ≠ demoProps 2 := by
  refine ⟨rfl, rfl, rfl, by decide⟩

/-! ## Resolution of the buffers -/

theorem wrapInt32_toNat_le (z : Int) (h : 0 ≤ z) : (wrapInt32 z).toNat ≤ z.toNat := by
  unfold wrapInt32
  omega

/-- A well-formed frame of the expected size holds at least `pixel_count`
pixels. -/
theorem WellFormed_data_length (frame : Mat) (res : FIntPoint) (hw : frame.WellFormed)
    (hm : frame.Matches res) : (pixelCount res).toNat ≤ frame.data.length := by
  obtain ⟨h1, h2, h3⟩ := hw
  obtain ⟨m1, m2⟩ := hm
  rw [h3, m1, m2]
  exact wrapInt32_toNat_le _ (Int.mul_nonneg (m1 ▸ h1) (m2 ▸ h2))

/-- After the device opened, the driver has the reported resolution, all three
buffers are sized for it, and roles and flags are as before. -/
theorem OpenDevice_opened (env : Env) (w : FWorkerRunnable) (d : UAURDriverOpenCV)
    (report : FIntPoint → FIntPoint) (hroles : RolesDistinct d)
    (hopen : env.OpenCamera d.CameraIndex = some report) :
    (FWorkerRunnable.OpenDevice env w d).2.Resolution = report d.Resolution ∧
    BuffersSized (FWorkerRunnable.OpenDevice env w d).2 ∧
    RolesDistinct (FWorkerRunnable.OpenDevice env w d).2 ∧
    (FWorkerRunnable.OpenDevice env w d).1.bContinue = w.bContinue := by
  obtain ⟨h1, h2, h3, h4⟩ := hroles
  refine ⟨?_, ?_, ?_, ?_⟩
  · simp only [FWorkerRunnable.OpenDevice, hopen]
  · intro i
    simp only [FWorkerRunnable.OpenDevice, hopen, FAURVideoFrame.SetResolution]
    rcases h4 i with e | e | e
    · subst e
      simp [Function.update_noteq h1, Function.update_noteq h3]
    · subst e
      simp [Function.update_noteq h2]
    · subst e
      simp
  · simp only [FWorkerRunnable.OpenDevice, hopen]
    exact ⟨h1, h2, h3, h4⟩
  · simp only [FWorkerRunnable.OpenDevice, hopen]

theorem BuffersSized_GetFrame (d : UAURDriverOpenCV) (h : BuffersSized d) :
    BuffersSized (GetFrame d).1 ∧ (GetFrame d).1.Resolution = d.Resolution := by
  cases hf : d.bNewFrameReady
  · rw [GetFrame_not_ready d hf]
    exact ⟨h, rfl⟩
  · obtain ⟨_, g2, _, _, _, _, g7⟩ := GetFrame_ready d hf
    refine ⟨fun i => ?_, g7⟩
    rw [g2, g7]
    exact h i

/-- A pass through the loop body over a well-formed frame has a result and
keeps every buffer sized for the unchanged resolution. -/
theorem BuffersSized_Iteration (env : Env) (w : FWorkerRunnable) (d : UAURDriverOpenCV)
    (frame : Mat) (hw : frame.WellFormed) (h : BuffersSized d) :
    ∃ w1 d1, FWorkerRunnable.Iteration env w d frame = some (w1, d1) ∧
      BuffersSized d1 ∧ d1.Resolution = d.Resolution := by
  by_cases hm : frame.Matches d.Resolution
  · obtain ⟨w1, d1, hr⟩ := Iteration_isSome env w d frame
      (WellFormed_data_length frame d.Resolution hw hm) (le_of_eq (h d.WorkerFrame).2.symm)
    obtain ⟨_, image, hconv, hd⟩ := Iteration_match env w w1 d d1 frame hm hr
    obtain ⟨_, _, _, _, e5, e6⟩ := published_fields env d frame image
    rw [← hd] at e5 e6
    obtain ⟨hlen, _, _⟩ := convertPixels_spec _ _ _ _ _ hconv
    refine ⟨w1, d1, hr, fun i => ?_, e5⟩
    rw [e5, e6]
    by_cases hi : i = d.WorkerFrame
    · subst hi
      simp only [Function.update_same]
      exact ⟨(h d.WorkerFrame).1, by rw [hlen]; exact (h d.WorkerFrame).2⟩
    · rw [Function.update_noteq hi]
      exact h i
  · exact ⟨_, _, Iteration_mismatch env w d frame hm, h, rfl⟩

theorem BuffersSized_runOps (env : Env) :
    ∀ (ops : List Op) (w : FWorkerRunnable) (d : UAURDriverOpenCV),
      (∀ op ∈ ops, op.WellFormed) → BuffersSized d →
      ∃ w1 d1, runOps env w d ops = some (w1, d1) ∧ BuffersSized d1 ∧
        d1.Resolution = d.Resolution := by
  intro ops
  induction ops with
  | nil =>
    intro w d _ h
    exact ⟨w, d, rfl, h, rfl⟩
  | cons op rest ih =>
    intro w d hops h
    have hrest : ∀ op' ∈ rest, op'.WellFormed :=
      fun op' hin => hops op' (List.mem_cons_of_mem _ hin)
    have hop : op.WellFormed := hops op (List.mem_cons_self _ _)
    have hstep : ∃ w2 d2, stepOp env w d op = some (w2, d2) ∧ BuffersSized d2 ∧
        d2.Resolution = d.Resolution := by
      cases op with
      | capture frame => exact BuffersSized_Iteration env w d frame hop h
      | getFrame => exact ⟨w, (GetFrame d).1, rfl, BuffersSized_GetFrame d h⟩
      | getOrientation => exact ⟨w, (GetOrientation d).1, rfl, h, rfl⟩
    obtain ⟨w2, d2, hs, hb, hres⟩ := hstep
    obtain ⟨w1, d1, hr, hb1, hres1⟩ := ih w2 d2 hrest hb
    exact ⟨w1, d1, by simp [runOps, hs, hr], hb1, by rw [hres1, hres]⟩

/-- The capture loop over well-formed frames has a result and keeps every
buffer sized for the unchanged resolution. -/
theorem BuffersSized_Loop (env : Env) :
    ∀ (frames : List Mat) (w : FWorkerRunnable) (d : UAURDriverOpenCV),
      (∀ frame ∈ frames, frame.WellFormed) → BuffersSized d →
      ∃ w1 d1 n, FWorkerRunnable.Loop env w d frames = some (w1, d1, n) ∧
        BuffersSized d1 ∧ d1.Resolution = d.Resolution := by
  intro frames
  induction frames with
  | nil =>
    intro w d _ h
    exact ⟨w, d, 0, rfl, h, rfl⟩
  | cons c cs ih =>
    intro w d hw h
    cases hb : w.bContinue
    · exact ⟨w, d, 0, by simp [FWorkerRunnable.Loop, hb], h, rfl⟩
    · obtain ⟨w2, d2, hi, hb2, hres2⟩ :=
        BuffersSized_Iteration env w d c (hw c (List.mem_cons_self _ _)) h
      obtain ⟨w1, d1, n, hl, hb1, hres1⟩ :=
        ih w2 d2 (fun f hf => hw f (List.mem_cons_of_mem _ hf)) hb2
      exact ⟨w1, d1, n + 1, by simp [FWorkerRunnable.Loop, hb, hi, hl], hb1,
        by rw [hres1, hres2]⟩

/-- From the state set up by `Initialize`, with a device that opens, `Run`
returns for every list of well-formed frames. -/
theorem Run_isSome (env : Env) (d0 d : UAURDriverOpenCV) (w : FWorkerRunnable)
    (report : FIntPoint → FIntPoint) (frames : List Mat)
    (hinit : Initialize env d0 = some d)
    (hopen : env.OpenCamera d.CameraIndex = some report)
    (hw : ∀ frame ∈ frames, frame.WellFormed) :
    ∃ r, FWorkerRunnable.Run env w d frames = some r := by
  obtain ⟨_, o2, _, _⟩ :=
    OpenDevice_opened env w d report (RolesDistinct_Initialize env d0 d hinit) hopen
  obtain ⟨w1, d1, n, hl, _, _⟩ :=
    BuffersSized_Loop env frames (FWorkerRunnable.OpenDevice env w d).1 _ hw o2
  exact ⟨({ w1 with VideoCaptureOpened := false }, d1, n), by
    simp only [FWorkerRunnable.Run, hl]⟩

theorem ResolutionRecorded_stepOp (env : Env) (w w1 : FWorkerRunnable)
    (d d1 : UAURDriverOpenCV) (op : Op) (hr : stepOp env w d op = some (w1, d1))
    (h : ResolutionRecorded d) : ResolutionRecorded d1 ∧ d1.Resolution = d.Resolution := by
  cases op with
  | capture frame =>
    by_cases hm : frame.Matches d.Resolution
    · obtain ⟨_, image, _, hd⟩ := Iteration_match env w w1 d d1 frame hm hr
      obtain ⟨_, _, _, _, e5, e6⟩ := published_fields env d frame image
      rw [← hd] at e5 e6
      refine ⟨fun i => ?_, e5⟩
      rw [e5, e6]
      by_cases hi : i = d.WorkerFrame
      · subst hi
        simp only [Function.update_same]
        exact h d.WorkerFrame
      · rw [Function.update_noteq hi]
        exact h i
    · have hr2 := hr
      simp only [stepOp] at hr2
      rw [Iteration_mismatch env w d frame hm] at hr2
      simp only [Option.some.injEq, Prod.mk.injEq] at hr2
      rw [← hr2.2]
      exact ⟨h, rfl⟩
  | getFrame =>
    simp only [stepOp, Option.some.injEq, Prod.mk.injEq] at hr
    rw [← hr.2]
    cases hf : d.bNewFrameReady
    · rw [GetFrame_not_ready d hf]
      exact ⟨h, rfl⟩
    · obtain ⟨_, g2, _, _, _, _, g7⟩ := GetFrame_ready d hf
      refine ⟨fun i => ?_, g7⟩
      rw [g2, g7]
      exact h i
  | getOrientation =>
    simp only [stepOp, Option.some.injEq, Prod.mk.injEq] at hr
    rw [← hr.2]
    exact ⟨h, rfl⟩

theorem ResolutionRecorded_runOps (env : Env) :
    ∀ (ops : List Op) (w w1 : FWorkerRunnable) (d d1 : UAURDriverOpenCV),
      runOps env w d ops = some (w1, d1) → ResolutionRecorded d →
      ResolutionRecorded d1 ∧ d1.Resolution = d.Resolution := by
  intro ops
  induction ops with
  | nil =>
    intro w w1 d d1 hr h
    simp only [runOps, Option.some.injEq, Prod.mk.injEq] at hr
    rw [← hr.2]
    exact ⟨h, rfl⟩
  | cons op rest ih =>
    intro w w1 d d1 hr h
    simp only [runOps] at hr
    cases hs : stepOp env w d op with
    | none => simp [hs] at hr
    | some r =>
      obtain ⟨w2, d2⟩ := r
      simp only [hs] at hr
      obtain ⟨s1, s2⟩ := ResolutionRecorded_stepOp env w w2 d d2 op hs h
      obtain ⟨r1, r2⟩ := ih w2 w1 d2 d1 hr s1
      exact ⟨r1, by rw [r2, s2]⟩

/-- C10 (resolution invariant). From the state set up by `Initialize`, let the
device open and report `report d.Resolution` for the requested `d.Resolution`.
After the opening part of `Run` the driver's `Resolution` is the reported value
and all three buffers record it. After every subsequent finite sequence of
capture-loop passes and consumer calls, the buffer `GetFrame` returns records a
resolution equal to the driver's `Resolution`, which is still the reported
value; and every such sequence over well-formed frames has a result. -/
theorem resolution_invariant (env : Env) (d0 d : UAURDriverOpenCV) (w : FWorkerRunnable)
    (report : FIntPoint → FIntPoint)
    (hinit : Initialize env d0 = some d)
    (hopen : env.OpenCamera d.CameraIndex = some report) :
    (FWorkerRunnable.OpenDevice env w d).2.Resolution = report d.Resolution ∧
    (∀ i : Fin 3, ((FWorkerRunnable.OpenDevice env w d).2.FrameInstances i).Resolution =
      report d.Resolution) ∧
    (∀ (ops : List Op) (w1 : FWorkerRunnable) (d1 : UAURDriverOpenCV),
      runOps env (FWorkerRunnable.OpenDevice env w d).1
        (FWorkerRunnable.OpenDevice env w d).2 ops = some (w1, d1) →
      ((GetFrame d1).1.FrameInstances (GetFrame d1).2).Resolution =
          (GetFrame d1).1.Resolution ∧
        (GetFrame d1).1.Resolution = report d.Resolution) ∧
    ∀ ops : List Op, (∀ op ∈ ops, op.WellFormed) →
      ∃ w1 d1, runOps env (FWorkerRunnable.OpenDevice env w d).1
        (FWorkerRunnable.OpenDevice env w d).2 ops = some (w1, d1) := by
  obtain ⟨o1, o2, _, _⟩ :=
    OpenDevice_opened env w d report (RolesDistinct_Initialize env d0 d hinit) hopen
  refine ⟨o1, fun i => by rw [(o2 i).1, o1], ?_, ?_⟩
  · intro ops w1 d1 hr
    obtain ⟨r1, r2⟩ := ResolutionRecorded_runOps env ops _ w1 _ d1 hr (fun i => (o2 i).1)
    obtain ⟨g1, g2⟩ := ResolutionRecorded_stepOp env w1 w1 d1 (GetFrame d1).1 Op.getFrame rfl r1
    exact ⟨g1 _, by rw [g2, r2, o1]⟩
  · intro ops hops
    obtain ⟨w1, d1, hr, _, _⟩ := BuffersSized_runOps env ops _ _ hops o2
    exact ⟨w1, d1, hr⟩

theorem demoTallOps_wellFormed : ∀ op ∈ demoTallOps, op.WellFormed := by
  decide

/-- The resolution invariant at a camera that reports 1 x 3 for a requested
2 x 1, followed by `demoTallOps`. -/
theorem resolution_invariant_witness :
    (FWorkerRunnable.OpenDevice demoEnvSmall demoWorker demoInitialized).2.Resolution =
      { X := 1, Y := 3 } ∧
    (∀ i : Fin 3,
      ((FWorkerRunnable.OpenDevice demoEnvSmall demoWorker demoInitialized).2.FrameInstances
        i).Resolution = { X := 1, Y := 3 }) ∧
    ∃ w1 d1, runOps demoEnvSmall
        (FWorkerRunnable.OpenDevice demoEnvSmall demoWorker demoInitialized).1
        (FWorkerRunnable.OpenDevice demoEnvSmall demoWorker demoInitialized).2 demoTallOps =
          some (w1, d1) ∧
      ((GetFrame d1).1.FrameInstances (GetFrame d1).2).Resolution =
        (GetFrame d1).1.Resolution ∧
      (GetFrame d1).1.Resolution = { X := 1, Y := 3 } :=
  ⟨(resolution_invariant demoEnvSmall demoDriver demoInitialized demoWorker
      (fun _ => { X := 1, Y := 3 }) rfl rfl).1,
    (resolution_invariant demoEnvSmall demoDriver demoInitialized demoWorker
      (fun _ => { X := 1, Y := 3 }) rfl rfl).2.1,
    ((resolution_invariant demoEnvSmall demoDriver demoInitialized demoWorker
      (fun _ => { X := 1, Y := 3 }) rfl rfl).2.2.2 demoTallOps demoTallOps_wellFormed).elim
      fun w1 h => h.elim fun d1 hr =>
        ⟨w1, d1, hr,
          (resolution_invariant demoEnvSmall demoDriver demoInitialized demoWorker
            (fun _ => { X := 1, Y := 3 }) rfl rfl).2.2.1 demoTallOps w1 d1 hr⟩⟩

/-! ## Lock scopes -/

/-- Run alone, the steps of `GetFrame` compute `GetFrame`. -/
theorem GetFrameProgram_runAlone (d : UAURDriverOpenCV) (t : Fin 3) :
    (ThreadState.runAlone GetFrameProgram.length { code := GetFrameProgram, tmp := t } d).2 =
      (GetFrame d).1 ∧
    (ThreadState.runAlone GetFrameProgram.length { code := GetFrameProgram, tmp := t } d).1.code =
      [] := by
  cases h : d.bNewFrameReady <;>
    simp [GetFrameProgram, ThreadState.runAlone, ThreadState.step, GetFrame, getRole, setRole, h]

/-- Run alone, the steps of the publishing block compute `publishFrame`. -/
theorem publishProgram_runAlone (d : UAURDriverOpenCV) (t : Fin 3) :
    (ThreadState.runAlone publishProgram.length { code := publishProgram, tmp := t } d).2 =
      publishFrame d := by
  simp [publishProgram, ThreadState.runAlone, ThreadState.step, publishFrame, getRole, setRole]

/-- Run alone, the steps of `StoreNewOrientation` compute `StoreNewOrientation`. -/
theorem StoreNewOrientationProgram_runAlone (d : UAURDriverOpenCV) (m : FTransform)
    (t : Fin 3) :
    (ThreadState.runAlone (StoreNewOrientationProgram m).length
      { code := StoreNewOrientationProgram m, tmp := t } d).2 = StoreNewOrientation d m := by
  simp [StoreNewOrientationProgram, ThreadState.runAlone, ThreadState.step,
    StoreNewOrientation, Super_StoreNewOrientation]

/-- Run alone, the steps of `GetOrientation` compute `GetOrientation`. -/
theorem GetOrientationProgram_runAlone (d : UAURDriverOpenCV) (t : Fin 3) :
    (ThreadState.runAlone GetOrientationProgram.length
      { code := GetOrientationProgram, tmp := t } d).2 = (GetOrientation d).1 := by
  simp [GetOrientationProgram, ThreadState.runAlone, ThreadState.step, GetOrientation]

/-- The orientation lock is held in `GetOrientation` when the flag is cleared
and the pose is read. -/
theorem GetOrientationProgram_guarded :
    guardedBy Lock.OrientationLock Instr.touchesOrientation GetOrientationProgram = true := by
  decide

/-- C6 fails as stated. In the publishing block of `Run` the frame lock is not
held when `WorkerFrame` and `AvailableFrame` are exchanged nor when
`bNewFrameReady` is set; in `StoreNewOrientation` the orientation lock is not
held when the pose is overwritten nor when `bNewOrientationReady` is set; in
`GetFrame` the frame lock is not held when `bNewFrameReady` is tested. And
there is an interleaving of one publishing block with one `GetFrame`, from the
state after `Initialize` and one published frame, in which both run to their
end, no step waits for a lock, and `GetFrame` leaves `PublishedFrame` equal to
`WorkerFrame`: the consumer is handed the buffer the capture thread writes
next. -/
theorem lock_discipline_counterexample :
    (publishProgram[3]? = some (Instr.swapMove Role.Worker Role.Available) ∧
      heldAt Lock.FrameLock publishProgram 3 = false) ∧
    (publishProgram[5]? = some (Instr.setNewFrameReady true) ∧
      heldAt Lock.FrameLock publishProgram 5 = false) ∧
    guardedBy Lock.FrameLock Instr.updatesFrameState publishProgram = false ∧
    ((StoreNewOrientationProgram (demoPose 1))[2]? =
        some (Instr.superStoreNewOrientation (demoPose 1)) ∧
      heldAt Lock.OrientationLock (StoreNewOrientationProgram (demoPose 1)) 2 = false) ∧
    guardedBy Lock.OrientationLock Instr.touchesOrientation
      (StoreNewOrientationProgram (demoPose 1)) = false ∧
    (GetFrameProgram[0]? = some (Instr.testNewFrameReady 6) ∧
      heldAt Lock.FrameLock GetFrameProgram 0 = false) ∧
    (RolesDistinct demoMachine.Driver ∧
      (Machine.run demoMachine demoSchedule).map
        (fun m => (m.capture.code, m.consumer.code, m.Driver.WorkerFrame,
          m.Driver.PublishedFrame)) = some ([], [], 0, 0)) := by
  exact ⟨by decide, by decide, by decide, by decide, by decide, by decide, by decide, rfl⟩

/-- C6 as amended. In `GetFrame` the exchange of `AvailableFrame` and
`PublishedFrame` and the clearing of `bNewFrameReady` are executed with the
frame lock held, inside the single critical section of the method, which is
entered after `bNewFrameReady` has been tested without the lock; run alone,
these steps compute `GetFrame`. -/
theorem GetFrame_critical_section (d : UAURDriverOpenCV) (t : Fin 3) :
    guardedBy Lock.FrameLock Instr.updatesFrameState GetFrameProgram = true ∧
    GetFrameProgram.count (Instr.acquire Lock.FrameLock) = 1 ∧
    GetFrameProgram.count (Instr.release Lock.FrameLock) = 1 ∧
    holds Lock.FrameLock GetFrameProgram = false ∧
    (∀ i instr, GetFrameProgram[i]? = some instr → instr.testsFrameFlag = true →
      i = 0 ∧ heldAt Lock.FrameLock GetFrameProgram i = false) ∧
    (ThreadState.runAlone GetFrameProgram.length { code := GetFrameProgram, tmp := t } d).2 =
      (GetFrame d).1 := by
  refine ⟨by decide, by decide, by decide, by decide, ?_, (GetFrameProgram_runAlone d t).1⟩
  intro i instr hi ht
  have hlt : i < GetFrameProgram.length := (List.getElem?_eq_some.mp hi).1
  have h8 : GetFrameProgram.length = 8 := rfl
  rw [h8] at hlt
  interval_cases i <;> simp [GetFrameProgram] at hi <;> subst hi <;>
    first
      | exact ⟨rfl, by decide⟩
      | simp [Instr.testsFrameFlag] at ht

/-! ## Shutdown -/

/-- C11 (`Shutdown` is idempotent). For every worker and driver state, a second
`Shutdown` (whatever the thread would do while waited for) leaves worker and
driver exactly as the first left them and makes no call: it neither signals
`Stop` nor waits. After the first `Shutdown` the pointer `Worker` is null, and
`WorkerThread` is null too whenever `Worker` was valid or `WorkerThread` was
already null. `Shutdown` on a state whose `Worker` is null changes nothing and
makes no call. -/
theorem Shutdown_idempotent
    (completed completed2 :
      FWorkerRunnable → UAURDriverOpenCV → FWorkerRunnable × UAURDriverOpenCV)
    (w : FWorkerRunnable) (d : UAURDriverOpenCV) :
    Shutdown completed2 (Shutdown completed w d).1 (Shutdown completed w d).2.1 =
      ((Shutdown completed w d).1, (Shutdown completed w d).2.1, []) ∧
    (Shutdown completed w d).2.1.Worker = false ∧
    ((d.Worker = true ∨ d.WorkerThread = false) →
      (Shutdown completed w d).2.1.WorkerThread = false) ∧
    (d.Worker = false → Shutdown completed w d = (w, d, [])) := by
  cases hw : d.Worker <;> cases ht : d.WorkerThread <;> simp [Shutdown, hw, ht]

/-- `Shutdown` of `demoInitialized` while the capture thread is inside a pass,
then `Shutdown` again. -/
theorem Shutdown_idempotent_witness :
    (Shutdown (demoCompleted (some (demoFrame 3))) demoWorker demoInitialized).2.2 =
      [ShutdownCall.Stop, ShutdownCall.WaitForCompletion] ∧
    Shutdown (demoCompleted none)
        (Shutdown (demoCompleted (some (demoFrame 3))) demoWorker demoInitialized).1
        (Shutdown (demoCompleted (some (demoFrame 3))) demoWorker demoInitialized).2.1 =
      ((Shutdown (demoCompleted (some (demoFrame 3))) demoWorker demoInitialized).1,
        (Shutdown (demoCompleted (some (demoFrame 3))) demoWorker demoInitialized).2.1, []) ∧
    (Shutdown (demoCompleted (some (demoFrame 3))) demoWorker demoInitialized).2.1.Worker =
      false ∧
    (Shutdown (demoCompleted (some (demoFrame 3))) demoWorker
      demoInitialized).2.1.WorkerThread = false :=
  ⟨rfl,
    (Shutdown_idempotent (demoCompleted (some (demoFrame 3))) (demoCompleted none) demoWorker
      demoInitialized).1,
    (Shutdown_idempotent (demoCompleted (some (demoFrame 3))) (demoCompleted none) demoWorker
      demoInitialized).2.1,
    (Shutdown_idempotent (demoCompleted (some (demoFrame 3))) (demoCompleted none) demoWorker
      demoInitialized).2.2.1 (Or.inl rfl)⟩

/-! ## Meaning of `bNewFrameReady` -/

theorem PublishedSince_cons (res : FIntPoint) (op : Op) (rest : List Op) :
    PublishedSince res (op :: rest) ↔
      PublishedSince res rest ∨
        ((∃ frame, op = Op.capture frame ∧ frame.Matches res) ∧ Op.getFrame ∉ rest) := by
  constructor
  · rintro ⟨pre, frame, post, heq, hm, hg⟩
    cases pre with
    | nil =>
      simp only [List.nil_append, List.cons.injEq] at heq
      obtain ⟨h1, h2⟩ := heq
      subst h1 h2
      exact Or.inr ⟨⟨frame, rfl, hm⟩, hg⟩
    | cons p pre' =>
      simp only [List.cons_append, List.cons.injEq] at heq
      exact Or.inl ⟨pre', frame, post, heq.2, hm, hg⟩
  · rintro (⟨pre, frame, post, heq, hm, hg⟩ | ⟨⟨frame, he, hm⟩, hg⟩)
    · exact ⟨op :: pre, frame, post, by rw [heq]; rfl, hm, hg⟩
    · exact ⟨[], frame, rest, by rw [he]; rfl, hm, hg⟩

/-- Effect of one operation on `bNewFrameReady` and on `Resolution`. -/
theorem stepOp_flag (env : Env) (w w1 : FWorkerRunnable) (d d1 : UAURDriverOpenCV) (op : Op)
    (hr : stepOp env w d op = some (w1, d1)) :
    d1.Resolution = d.Resolution ∧
    ((∃ frame, op = Op.capture frame ∧ frame.Matches d.Resolution) →
      d1.bNewFrameReady = true) ∧
    (op = Op.getFrame → d1.bNewFrameReady = false) ∧
    ((¬ ∃ frame, op = Op.capture frame ∧ frame.Matches d.Resolution) → op ≠ Op.getFrame →
      d1.bNewFrameReady = d.bNewFrameReady) := by
  cases op with
  | capture frame =>
    by_cases hm : frame.Matches d.Resolution
    · obtain ⟨_, image, _, hd⟩ := Iteration_match env w w1 d d1 frame hm hr
      obtain ⟨_, _, _, e4, e5, _⟩ := published_fields env d frame image
      rw [← hd] at e4 e5
      refine ⟨e5, fun _ => e4, fun h => Op.noConfusion h, fun h _ => ?_⟩
      exact absurd ⟨frame, rfl, hm⟩ h
    · have hr2 := hr
      simp only [stepOp] at hr2
      rw [Iteration_mismatch env w d frame hm] at hr2
      simp only [Option.some.injEq, Prod.mk.injEq] at hr2
      rw [← hr2.2]
      refine ⟨rfl, ?_, fun h => Op.noConfusion h, fun _ _ => rfl⟩
      rintro ⟨frame', he, hm'⟩
      cases he
      exact absurd hm' hm
  | getFrame =>
    simp only [stepOp, Option.some.injEq, Prod.mk.injEq] at hr
    rw [← hr.2]
    refine ⟨?_, ?_, fun _ => ?_, fun _ h => absurd rfl h⟩
    · cases hf : d.bNewFrameReady <;> simp [GetFrame, hf]
    · rintro ⟨frame, he, _⟩
      cases he
    · cases hf : d.bNewFrameReady <;> simp [GetFrame, hf]
  | getOrientation =>
    simp only [stepOp, Option.some.injEq, Prod.mk.injEq] at hr
    rw [← hr.2]
    refine ⟨rfl, ?_, fun h => Op.noConfusion h, fun _ _ => rfl⟩
    rintro ⟨frame, he, _⟩
    cases he

/-- After a sequence of operations `bNewFrameReady` is set exactly when a frame
was published after the last `GetFrame`, or the flag was set at the start and
there was no `GetFrame` at all. -/
theorem runOps_flag (env : Env) :
    ∀ (ops : List Op) (w w1 : FWorkerRunnable) (d d1 : UAURDriverOpenCV),
      runOps env w d ops = some (w1, d1) →
      (d1.bNewFrameReady = true ↔
        PublishedSince d.Resolution ops ∨ (d.bNewFrameReady = true ∧ Op.getFrame ∉ ops)) := by
  intro ops
  induction ops with
  | nil =>
    intro w w1 d d1 hr
    simp only [runOps, Option.some.injEq, Prod.mk.injEq] at hr
    rw [← hr.2]
    constructor
    · intro h
      exact Or.inr ⟨h, by simp⟩
    · rintro (⟨pre, frame, post, heq, _, _⟩ | ⟨h, _⟩)
      · simp at heq
      · exact h
  | cons op rest ih =>
    intro w w1 d d1 hr
    simp only [runOps] at hr
    cases hs : stepOp env w d op with
    | none => simp [hs] at hr
    | some r =>
      obtain ⟨w2, d2⟩ := r
      simp only [hs] at hr
      obtain ⟨hres, hpub, hget, hother⟩ := stepOp_flag env w w2 d d2 op hs
      rw [ih w2 w1 d2 d1 hr, hres, PublishedSince_cons]
      by_cases hp : ∃ frame, op = Op.capture frame ∧ frame.Matches d.Resolution
      · have h2 := hpub hp
        have hne : op ≠ Op.getFrame := by
          rintro rfl
          obtain ⟨frame, he, _⟩ := hp
          cases he
        simp only [h2, true_and, List.mem_cons, not_or]
        constructor
        · rintro (h | h)
          · exact Or.inl (Or.inl h)
          · exact Or.inl (Or.inr ⟨hp, h⟩)
        · rintro ((h | ⟨_, h⟩) | ⟨_, _, h⟩)
          · exact Or.inl h
          · exact Or.inr h
          · exact Or.inr h
      · by_cases hg : op = Op.getFrame
        · have h2 := hget hg
          simp only [h2, Bool.false_eq_true, false_and, or_false, hg, List.mem_cons, true_or,
            not_true_eq_false, and_false]
          constructor
          · intro h
            exact Or.inl h
          · rintro (h | ⟨⟨frame, he, _⟩, _⟩)
            · exact h
            · cases he
        · have h2 := hother hp hg
          simp only [h2, List.mem_cons, not_or]
          constructor
          · rintro (h | ⟨h1, h3⟩)
            · exact Or.inl (Or.inl h)
            · exact Or.inr ⟨h1, fun e => hg e.symm, h3⟩
          · rintro ((h | ⟨h, _⟩) | ⟨h1, _, h3⟩)
            · exact Or.inl h
            · exact absurd h hp
            · exact Or.inr ⟨h1, h3⟩

/-- C12 (meaning of the flag). After any finite sequence of capture-loop passes
and consumer calls applied to the state set up by `Initialize`,
`IsNewFrameAvailable` is true if and only if the sequence contains a publish
step (a pass over a frame of the expected size) that is not followed by any
`GetFrame` call. -/
theorem flag_meaning (env : Env) (d0 d d1 : UAURDriverOpenCV) (w w1 : FWorkerRunnable)
    (ops : List Op)
    (hinit : Initialize env d0 = some d)
    (hops : runOps env w d ops = some (w1, d1)) :
    IsNewFrameAvailable d1 = true ↔
      ∃ pre frame post, ops = pre ++ Op.capture frame :: post ∧
        frame.Matches d.Resolution ∧ Op.getFrame ∉ post := by
  obtain ⟨_, _, _, h4, _, _⟩ := Initialize_fields env d0 d hinit
  have h := runOps_flag env ops w w1 d d1 hops
  simp only [h4, Bool.false_eq_true, false_and, or_false] at h
  exact h

/-- The flag after `demoOps`: the pass over `demoFrame 7` is followed by no
`GetFrame`, and `IsNewFrameAvailable` is true. -/
theorem flag_meaning_witness :
    Initialize (demoEnv none none true) demoDriver = some demoInitialized ∧
    runOps (demoEnv none none true) demoWorker demoInitialized demoOps = some demoAfterOps ∧
    IsNewFrameAvailable demoAfterOps.2 = true ∧
    (IsNewFrameAvailable demoAfterOps.2 = true ↔
      ∃ pre frame post, demoOps = pre ++ Op.capture frame :: post ∧
        frame.Matches demoInitialized.Resolution ∧ Op.getFrame ∉ post) :=
  ⟨rfl, rfl, rfl,
    flag_meaning (demoEnv none none true) demoDriver demoInitialized demoAfterOps.2
      demoWorker demoAfterOps.1 demoOps rfl rfl⟩

/-! ## Pose update -/

theorem trackOrientation_eq (env : Env) (d : UAURDriverOpenCV) (frame : Mat) :
    trackOrientation env d frame =
      if d.bPerformOrientationTracking = true ∧ (env.DetectMarkers d.Tracker frame).1 = true
      then StoreNewOrientation d (env.DetectMarkers d.Tracker frame).2 else d := by
  unfold trackOrientation
  by_cases h1 : d.bPerformOrientationTracking = true
  · by_cases h2 : (env.DetectMarkers d.Tracker frame).1 = true
    · simp [h1, h2]
    · simp [h1, h2]
  · simp [h1]

/-- C13 (pose update condition). In a loop pass over a frame of the expected
size (camera data and worker buffer holding `pixel_count` pixels) the result is
the conversion and publication applied to `StoreNewOrientation d t`, `t` the
tracker's transform, when `bPerformOrientationTracking` is set and the tracker
reports markers, and applied to `d` itself otherwise. So in the first case pose
and `bNewOrientationReady` are those `StoreNewOrientation` leaves (the flag is
set), in the other cases both are unchanged, and a clear
`bNewOrientationReady` becomes set exactly in the first case. In all cases the
frame is converted into the worker buffer and published. -/
theorem pose_update_condition (env : Env) (w : FWorkerRunnable) (d : UAURDriverOpenCV)
    (frame : Mat)
    (hm : frame.Matches d.Resolution)
    (hsrc : (pixelCount d.Resolution).toNat ≤ frame.data.length)
    (hdst : (pixelCount d.Resolution).toNat ≤ (d.FrameInstances d.WorkerFrame).Image.length) :
    ∃ w1 d1 image, FWorkerRunnable.Iteration env w d frame = some (w1, d1) ∧
      convertPixels frame.data (pixelCount d.Resolution).toNat 0
        (d.FrameInstances d.WorkerFrame).Image = some image ∧
      d1 = publishFrame (writeWorkerImage
        (if d.bPerformOrientationTracking = true ∧ (env.DetectMarkers d.Tracker frame).1 = true
          then StoreNewOrientation d (env.DetectMarkers d.Tracker frame).2 else d) image) ∧
      ((d.bPerformOrientationTracking = true ∧ (env.DetectMarkers d.Tracker frame).1 = true) →
        d1.CurrentOrientation =
          (StoreNewOrientation d (env.DetectMarkers d.Tracker frame).2).CurrentOrientation ∧
        d1.bNewOrientationReady = true) ∧
      (¬ (d.bPerformOrientationTracking = true ∧ (env.DetectMarkers d.Tracker frame).1 = true) →
        d1.CurrentOrientation = d.CurrentOrientation ∧
        d1.bNewOrientationReady = d.bNewOrientationReady) ∧
      (d.bNewOrientationReady = false →
        (d1.bNewOrientationReady = true ↔
          (d.bPerformOrientationTracking = true ∧
            (env.DetectMarkers d.Tracker frame).1 = true))) ∧
      d1.WorkerFrame = d.AvailableFrame ∧ d1.AvailableFrame = d.WorkerFrame ∧
      d1.bNewFrameReady = true ∧ (d1.FrameInstances d.WorkerFrame).Image = image := by
  obtain ⟨w1, d1, hr⟩ := Iteration_isSome env w d frame hsrc hdst
  obtain ⟨_, image, hconv, hd⟩ := Iteration_match env w w1 d d1 frame hm hr
  obtain ⟨e1, e2, _, e4, _, e6⟩ := published_fields env d frame image
  rw [← hd] at e1 e2 e4 e6
  have hpose : d1.CurrentOrientation = (trackOrientation env d frame).CurrentOrientation ∧
      d1.bNewOrientationReady = (trackOrientation env d frame).bNewOrientationReady := by
    rw [hd]
    exact ⟨rfl, rfl⟩
  rw [trackOrientation_eq] at hpose hd
  refine ⟨w1, d1, image, hr, hconv, hd, ?_, ?_, ?_, e1, e2, e4, by rw [e6]; simp⟩
  · intro h
    rw [if_pos h] at hpose
    exact ⟨hpose.1, by rw [hpose.2]; rfl⟩
  · intro h
    rw [if_neg h] at hpose
    exact hpose
  · intro hflag
    by_cases h : d.bPerformOrientationTracking = true ∧
        (env.DetectMarkers d.Tracker frame).1 = true
    · rw [if_pos h] at hpose
      exact ⟨fun _ => h, fun _ => by rw [hpose.2]; rfl⟩
    · rw [if_neg h] at hpose
      rw [hpose.2, hflag]
      exact ⟨fun hh => absurd hh (by simp), fun hh => absurd hh h⟩

/-- A pass of `demoInitialized` (tracking enabled) over `demoFrame 3`, in which
the tracker of `demoEnv` finds a marker. -/
theorem pose_update_condition_witness :
    ∃ w1 d1 image,
      FWorkerRunnable.Iteration (demoEnv none none true) demoWorker demoInitialized
        (demoFrame 3) = some (w1, d1) ∧
      convertPixels (demoFrame 3).data (pixelCount demoInitialized.Resolution).toNat 0
        (demoInitialized.FrameInstances demoInitialized.WorkerFrame).Image = some image ∧
      d1 = publishFrame (writeWorkerImage
        (if demoInitialized.bPerformOrientationTracking = true ∧
            ((demoEnv none none true).DetectMarkers demoInitialized.Tracker
              (demoFrame 3)).1 = true
          then StoreNewOrientation demoInitialized
            ((demoEnv none none true).DetectMarkers demoInitialized.Tracker (demoFrame 3)).2
          else demoInitialized) image) ∧
      ((demoInitialized.bPerformOrientationTracking = true ∧
          ((demoEnv none none true).DetectMarkers demoInitialized.Tracker
            (demoFrame 3)).1 = true) →
        d1.CurrentOrientation =
          (StoreNewOrientation demoInitialized
            ((demoEnv none none true).DetectMarkers demoInitialized.Tracker
              (demoFrame 3)).2).CurrentOrientation ∧
        d1.bNewOrientationReady = true) ∧
      (¬ (demoInitialized.bPerformOrientationTracking = true ∧
          ((demoEnv none none true).DetectMarkers demoInitialized.Tracker
            (demoFrame 3)).1 = true) →
        d1.CurrentOrientation = demoInitialized.CurrentOrientation ∧
        d1.bNewOrientationReady = demoInitialized.bNewOrientationReady) ∧
      (demoInitialized.bNewOrientationReady = false →
        (d1.bNewOrientationReady = true ↔
          (demoInitialized.bPerformOrientationTracking = true ∧
            ((demoEnv none none true).DetectMarkers demoInitialized.Tracker
              (demoFrame 3)).1 = true))) ∧
      d1.WorkerFrame = demoInitialized.AvailableFrame ∧
      d1.AvailableFrame = demoInitialized.WorkerFrame ∧
      d1.bNewFrameReady = true ∧
      (d1.FrameInstances demoInitialized.WorkerFrame).Image = image :=
  pose_update_condition (demoEnv none none true) demoWorker demoInitialized (demoFrame 3)
    (by decide) (by decide) (by decide)

/-! ## Pixel conversion -/

theorem pixelCount_eq (res : FIntPoint) (h0 : 0 ≤ res.X * res.Y)
    (h1 : res.X * res.Y < 2147483648) : pixelCount res = res.X * res.Y := by
  unfold pixelCount wrapInt32
  omega

/-- C14 (pixel conversion is a pure channel copy). In a loop pass over a frame
of the expected size (camera data and worker buffer holding `pixel_count`
pixels, `pixel_count` being the `int32` value of `Resolution.X * Resolution.Y`)
the pass has a result in which, for every `i < pixel_count`, pixel `i` of the
buffer that was in worker role has R, G and B equal to R, G and B of camera
pixel `i`; every pixel from `pixel_count` on is as it was, and the buffer has
the length it had: exactly `pixel_count` pixels are written. `pixel_count` is
the product itself whenever that is a non-negative `int32`. -/
theorem pixel_conversion (env : Env) (w : FWorkerRunnable) (d : UAURDriverOpenCV)
    (frame : Mat)
    (hm : frame.Matches d.Resolution)
    (hsrc : (pixelCount d.Resolution).toNat ≤ frame.data.length)
    (hdst : (pixelCount d.Resolution).toNat ≤ (d.FrameInstances d.WorkerFrame).Image.length) :
    ∃ w1 d1, FWorkerRunnable.Iteration env w d frame = some (w1, d1) ∧
      (∀ i, i < (pixelCount d.Resolution).toNat →
        ∃ src_pix dest_pix, frame.data[i]? = some src_pix ∧
          (d1.FrameInstances d.WorkerFrame).Image[i]? = some dest_pix ∧
          dest_pix.R = src_pix.R ∧ dest_pix.G = src_pix.G ∧ dest_pix.B = src_pix.B) ∧
      (∀ i, (pixelCount d.Resolution).toNat ≤ i →
        (d1.FrameInstances d.WorkerFrame).Image[i]? =
          (d.FrameInstances d.WorkerFrame).Image[i]?) ∧
      (d1.FrameInstances d.WorkerFrame).Image.length =
        (d.FrameInstances d.WorkerFrame).Image.length ∧
      (0 ≤ d.Resolution.X * d.Resolution.Y → d.Resolution.X * d.Resolution.Y < 2147483648 →
        pixelCount d.Resolution = d.Resolution.X * d.Resolution.Y) := by
  obtain ⟨w1, d1, hr⟩ := Iteration_isSome env w d frame hsrc hdst
  obtain ⟨_, image, hconv, hd⟩ := Iteration_match env w w1 d d1 frame hm hr
  obtain ⟨_, _, _, _, _, e6⟩ := published_fields env d frame image
  rw [← hd] at e6
  obtain ⟨hlen, hin, hout⟩ := convertPixels_spec _ _ _ _ _ hconv
  have himg : (d1.FrameInstances d.WorkerFrame).Image = image := by rw [e6]; simp
  refine ⟨w1, d1, hr, ?_, ?_, by rw [himg, hlen], pixelCount_eq d.Resolution⟩
  · intro i hi
    obtain ⟨s, p, hs, _, ho⟩ := hin i (Nat.zero_le _) (by omega)
    exact ⟨s, _, hs, by rw [himg]; exact ho, rfl, rfl, rfl⟩
  · intro i hi
    rw [himg]
    exact hout i (Or.inr (by omega))

/-- Conversion of `demoFrame 3` into the worker buffer of `demoInitialized`. -/
theorem pixel_conversion_witness :
    ∃ w1 d1,
      FWorkerRunnable.Iteration (demoEnv none none true) demoWorker demoInitialized
        (demoFrame 3) = some (w1, d1) ∧
      (∀ i, i < (pixelCount demoInitialized.Resolution).toNat →
        ∃ src_pix dest_pix, (demoFrame 3).data[i]? = some src_pix ∧
          (d1.FrameInstances demoInitialized.WorkerFrame).Image[i]? = some dest_pix ∧
          dest_pix.R = src_pix.R ∧ dest_pix.G = src_pix.G ∧ dest_pix.B = src_pix.B) ∧
      (∀ i, (pixelCount demoInitialized.Resolution).toNat ≤ i →
        (d1.FrameInstances demoInitialized.WorkerFrame).Image[i]? =
          (demoInitialized.FrameInstances demoInitialized.WorkerFrame).Image[i]?) ∧
      (d1.FrameInstances demoInitialized.WorkerFrame).Image.length =
        (demoInitialized.FrameInstances demoInitialized.WorkerFrame).Image.length ∧
      (0 ≤ demoInitialized.Resolution.X * demoInitialized.Resolution.Y →
        demoInitialized.Resolution.X * demoInitialized.Resolution.Y < 2147483648 →
        pixelCount demoInitialized.Resolution =
          demoInitialized.Resolution.X * demoInitialized.Resolution.Y) :=
  pixel_conversion (demoEnv none none true) demoWorker demoInitialized (demoFrame 3)
    (by decide) (by decide) (by decide)

theorem convertPixels_alpha (src : List BGR_Color) (n idx : Nat) (dest out : List FColor)
    (h : convertPixels src n idx dest = some out) :
    out.map FColor.A = dest.map FColor.A := by
  obtain ⟨_, hin, hout⟩ := convertPixels_spec src n idx dest out h
  apply List.ext_getElem?
  intro i
  by_cases hi : idx ≤ i ∧ i < idx + n
  · obtain ⟨s, p, _, hp, ho⟩ := hin i hi.1 hi.2
    simp [List.getElem?_map, hp, ho]
  · have hi2 : i < idx ∨ idx + n ≤ i := by omega
    simp [List.getElem?_map, hout i hi2]

/-- A loop pass leaves the A members of every buffer as they were. -/
theorem alpha_untouched_pass (env : Env) (w w1 : FWorkerRunnable) (d d1 : UAURDriverOpenCV)
    (frame : Mat)
    (hr : FWorkerRunnable.Iteration env w d frame = some (w1, d1)) :
    ∀ j : Fin 3, (d1.FrameInstances j).Image.map FColor.A =
      (d.FrameInstances j).Image.map FColor.A := by
  intro j
  by_cases hm : frame.Matches d.Resolution
  · obtain ⟨_, image, hconv, hd⟩ := Iteration_match env w w1 d d1 frame hm hr
    obtain ⟨_, _, _, _, _, e6⟩ := published_fields env d frame image
    rw [← hd] at e6
    rw [e6]
    by_cases hj : j = d.WorkerFrame
    · subst hj
      simp only [Function.update_same]
      exact convertPixels_alpha _ _ _ _ _ hconv
    · rw [Function.update_noteq hj]
  · rw [Iteration_mismatch env w d frame hm] at hr
    simp only [Option.some.injEq, Prod.mk.injEq] at hr
    rw [← hr.2]

/-- Over any sequence of loop passes and consumer calls every buffer keeps the
A members it had at the start. -/
theorem alpha_runOps (env : Env) :
    ∀ (ops : List Op) (w w1 : FWorkerRunnable) (d d1 : UAURDriverOpenCV),
      runOps env w d ops = some (w1, d1) →
      ∀ j : Fin 3, (d1.FrameInstances j).Image.map FColor.A =
        (d.FrameInstances j).Image.map FColor.A := by
  intro ops
  induction ops with
  | nil =>
    intro w w1 d d1 hr j
    simp only [runOps, Option.some.injEq, Prod.mk.injEq] at hr
    rw [← hr.2]
  | cons op rest ih =>
    intro w w1 d d1 hr j
    simp only [runOps] at hr
    cases hs : stepOp env w d op with
    | none => simp [hs] at hr
    | some r =>
      obtain ⟨w2, d2⟩ := r
      simp only [hs] at hr
      rw [ih w2 w1 d2 d1 hr j]
      cases op with
      | capture frame => exact alpha_untouched_pass env w w2 d d2 frame hs j
      | getFrame =>
        simp only [stepOp, Option.some.injEq, Prod.mk.injEq] at hs
        rw [← hs.2]
        cases hf : d.bNewFrameReady <;> simp [GetFrame, hf]
      | getOrientation =>
        simp only [stepOp, Option.some.injEq, Prod.mk.injEq] at hs
        rw [← hs.2]
        rfl

/-- C15 (the conversion never writes alpha). Whatever frame a loop pass
processes, in its result the A members of every buffer, the one that was in
worker role included, are pixel for pixel those it held before the pass. -/
theorem alpha_untouched (env : Env) (w w1 : FWorkerRunnable) (d d1 : UAURDriverOpenCV)
    (frame : Mat)
    (hr : FWorkerRunnable.Iteration env w d frame = some (w1, d1)) :
    ∀ j : Fin 3,
      (d1.FrameInstances j).Image.map FColor.A = (d.FrameInstances j).Image.map FColor.A ∧
      ∀ i : Nat, ((d1.FrameInstances j).Image[i]?).map FColor.A =
        ((d.FrameInstances j).Image[i]?).map FColor.A := by
  intro j
  have h := alpha_untouched_pass env w w1 d d1 frame hr j
  refine ⟨h, fun i => ?_⟩
  have hi := congrArg (fun l : List (Fin 256) => l[i]?) h
  simpa [List.getElem?_map] using hi

/-- A pass over `demoFrame 3`: the buffers of `demoInitialized` hold alpha 255
before and after. -/
theorem alpha_untouched_witness :
    FWorkerRunnable.Iteration (demoEnv none none true) demoWorker demoInitialized
      (demoFrame 3) = some demoPass ∧
    (demoPass.2.FrameInstances demoInitialized.WorkerFrame).Image.map FColor.A = [255, 255] ∧
    ∀ j : Fin 3,
      (demoPass.2.FrameInstances j).Image.map FColor.A =
        (demoInitialized.FrameInstances j).Image.map FColor.A ∧
      ∀ i : Nat, ((demoPass.2.FrameInstances j).Image[i]?).map FColor.A =
        ((demoInitialized.FrameInstances j).Image[i]?).map FColor.A :=
  ⟨rfl, rfl,
    alpha_untouched (demoEnv none none true) demoWorker demoPass.1 demoInitialized demoPass.2
      (demoFrame 3) rfl⟩

/-! ## Aspect ratio -/

/-- The truncated quotient of an `int32` by a non-zero `int32` is an `int32`,
except for the one quotient that overflows. -/
theorem tdiv_int32 (X Y : Int) (hX : -2147483648 ≤ X ∧ X < 2147483648) (hY : Y ≠ 0)
    (hov : ¬ (X = -2147483648 ∧ Y = -1)) :
    -2147483648 ≤ Int.tdiv X Y ∧ Int.tdiv X Y < 2147483648 := by
  have hq : (Int.tdiv X Y).natAbs = X.natAbs / Y.natAbs := Int.natAbs_tdiv X Y
  have hYpos : 0 < Y.natAbs := Int.natAbs_pos.mpr hY
  have hXabs : X.natAbs ≤ 2147483648 := by omega
  rcases Nat.lt_or_ge Y.natAbs 2 with h1 | h2
  · have hY1 : Y.natAbs = 1 := by omega
    rcases Int.natAbs_eq Y with e | e
    · rw [hY1] at e
      have e1 : Y = 1 := by simpa using e
      subst e1
      rw [Int.tdiv_one]
      exact hX
    · rw [hY1] at e
      have e1 : Y = -1 := by simpa using e
      subst e1
      rw [Int.tdiv_neg, Int.tdiv_one]
      have : X ≠ -2147483648 := fun hh => hov ⟨hh, rfl⟩
      omega
  · have hle : X.natAbs / Y.natAbs ≤ X.natAbs / 2 := Nat.div_le_div_left h2 (by decide)
    have : (Int.tdiv X Y).natAbs ≤ 1073741824 := by omega
    omega

/-- C16 fails as stated. The configured resolution `-2147483648 x -1` has
`Y != 0`, yet the `int32` division `Resolution.X / Resolution.Y` overflows:
`LoadCalibration` has no result, and so `Initialize` has none either. -/
theorem aspect_ratio_overflow :
    demoOverflow.Resolution.Y ≠ 0 ∧
    LoadCalibration (demoEnv none none true) demoOverflow = none ∧
    Initialize (demoEnv none none true) demoOverflow = none := by
  exact ⟨by decide, rfl, rfl⟩

/-- C16 as amended. For every configured resolution with `Y != 0`, other than
`X = -2147483648` with `Y = -1`, `LoadCalibration` returns and
`CameraAspectRatio` is the conversion to `float` of the integer quotient
`X / Y` rounded toward zero, which is an `int32` whenever `X` is. It is the same
whatever the calibration files hold, that is, whether or not either load
succeeds. -/
theorem aspect_ratio_truncated (env : Env) (d : UAURDriverOpenCV)
    (hY : d.Resolution.Y ≠ 0)
    (hov : ¬ (d.Resolution.X = -2147483648 ∧ d.Resolution.Y = -1)) :
    ∃ d1, LoadCalibration env d = some d1 ∧
      d1.CameraAspectRatio = FloatVal.ofInt32 (Int.tdiv d.Resolution.X d.Resolution.Y) ∧
      ((-2147483648 ≤ d.Resolution.X ∧ d.Resolution.X < 2147483648) →
        -2147483648 ≤ Int.tdiv d.Resolution.X d.Resolution.Y ∧
          Int.tdiv d.Resolution.X d.Resolution.Y < 2147483648) ∧
      ∀ env2 : Env, ∃ d2, LoadCalibration env2 d = some d2 ∧
        d2.CameraAspectRatio = d1.CameraAspectRatio := by
  have hc : ¬ (d.Resolution.Y = 0 ∨
      (d.Resolution.X = -2147483648 ∧ d.Resolution.Y = -1)) := by
    rintro (h | h)
    · exact hY h
    · exact hov h
  have key : ∀ e : Env, ∃ d1, LoadCalibration e d = some d1 ∧
      d1.CameraAspectRatio = FloatVal.ofInt32 (Int.tdiv d.Resolution.X d.Resolution.Y) := by
    intro e
    unfold LoadCalibration
    simp only [hc, if_false]
    exact ⟨_, rfl, rfl⟩
  obtain ⟨d1, hd1, ha1⟩ := key env
  refine ⟨d1, hd1, ha1, ?_, ?_⟩
  · intro hX
    exact tdiv_int32 d.Resolution.X d.Resolution.Y hX hY hov
  · intro env2
    obtain ⟨d2, hd2, ha2⟩ := key env2
    exact ⟨d2, hd2, by rw [ha2, ha1]⟩

/-- The aspect ratio for 1280 x 720 is the conversion of the integer 1, and is
the same for every content of the calibration files. -/
theorem aspect_ratio_truncated_witness :
    (LoadCalibration (demoEnv none none true) demoHD).map (fun d => d.CameraAspectRatio) =
      some (FloatVal.ofInt32 1) ∧
    ∃ d1, LoadCalibration (demoEnv none none true) demoHD = some d1 ∧
      d1.CameraAspectRatio =
        FloatVal.ofInt32 (Int.tdiv demoHD.Resolution.X demoHD.Resolution.Y) ∧
      ((-2147483648 ≤ demoHD.Resolution.X ∧ demoHD.Resolution.X < 2147483648) →
        -2147483648 ≤ Int.tdiv demoHD.Resolution.X demoHD.Resolution.Y ∧
          Int.tdiv demoHD.Resolution.X demoHD.Resolution.Y < 2147483648) ∧
      ∀ env2 : Env, ∃ d2, LoadCalibration env2 demoHD = some d2 ∧
        d2.CameraAspectRatio = d1.CameraAspectRatio :=
  ⟨rfl, aspect_ratio_truncated (demoEnv none none true) demoHD (by decide) (by decide)⟩

/-! ## Interleaved publication -/

/-- C3 at an interleaving. From the state set up by `Initialize` the capture
thread completes one pass and, in its second pass, reaches the publishing
block (run on its own, that block completes the pass); the roles are distinct
there. The consumer then runs `GetFrame` between the second and the third step
of the capture thread's exchange; no step waits for a lock. When both have
finished, `WorkerFrame` and `PublishedFrame` are the same element of
`FrameInstances`, the third element holds no role, and the role invariant is
false. -/
theorem roles_invariant_interleaved :
    Initialize (demoEnv none none true) demoDriver = some demoInitialized ∧
    (FWorkerRunnable.Iteration (demoEnv none none true) demoWorker demoInitialized
      (demoFrame 3)).map (fun r => r.2) = some demoPublished ∧
    (FWorkerRunnable.Iteration (demoEnv none none true) demoWorker demoPublished
      (demoFrame 7)).map (fun r => r.2) = some (publishFrame demoSecondPassWritten) ∧
    RolesDistinct demoRaceMachine.Driver ∧
    (Machine.run demoRaceMachine demoSchedule).map
      (fun m => (m.capture.code, m.consumer.code, m.Driver.WorkerFrame,
        m.Driver.AvailableFrame, m.Driver.PublishedFrame)) = some ([], [], 0, 1, 0) ∧
    (Machine.run demoRaceMachine demoSchedule).map (fun m => m.Driver.WorkerFrame) =
      some demoRaced.WorkerFrame ∧
    demoRaced.WorkerFrame = demoRaced.PublishedFrame ∧
    (2 : Fin 3) ≠ demoRaced.WorkerFrame ∧ (2 : Fin 3) ≠ demoRaced.AvailableFrame ∧
    (2 : Fin 3) ≠ demoRaced.PublishedFrame ∧
    ¬ RolesDistinct demoRaced := by
  exact ⟨rfl, rfl, rfl, by decide, rfl, rfl, by decide, by decide, by decide, by decide,
    by decide⟩

/-- C5 at an interleaving. In the run of `demoRaceMachine` under
`demoSchedule` (one complete pass after `Initialize`, then the publishing block
of the second pass overlapped by a `GetFrame`) the consumer's `GetFrame` has
returned after twelve steps of the schedule, with
`PublishedFrame` pointing to element 0, which holds the converted `demoFrame 3`;
`WorkerFrame` points to element 0 as well, then and when the publishing block
has finished. The next loop pass, over `demoFrame 9`, with no further
`GetFrame`, writes element 0: the buffer the consumer holds now carries
`demoFrame 9`. -/
theorem consumer_buffer_interleaved :
    (Machine.run demoRaceMachine (demoSchedule.take 12)).map
      (fun m => (m.consumer.code, m.Driver.PublishedFrame, m.Driver.WorkerFrame)) =
        some ([], 0, 0) ∧
    (Machine.run demoRaceMachine demoSchedule).map
      (fun m => (m.capture.code, m.consumer.code, m.Driver.PublishedFrame,
        m.Driver.WorkerFrame)) = some ([], [], 0, 0) ∧
    ((demoRaced.FrameInstances demoRaced.PublishedFrame).Image.map FColor.rgb =
      (demoFrame 3).data.map BGR_Color.rgb) ∧
    ((FWorkerRunnable.Iteration (demoEnv none none true) demoWorker demoRaced
        (demoFrame 9)).map
      (fun r => (r.2.PublishedFrame,
        (r.2.FrameInstances demoRaced.PublishedFrame).Image.map FColor.rgb)) =
      some (demoRaced.PublishedFrame, (demoFrame 9).data.map BGR_Color.rgb)) ∧
    (demoFrame 9).data.map BGR_Color.rgb ≠ (demoFrame 3).data.map BGR_Color.rgb := by
  exact ⟨rfl, rfl, rfl, rfl, by decide⟩

end AUR
